import Mathlib

/-!
PROXY protocol version 2 header codec (`bfe_proxy/v2.go`).

A shallow embedding of `parseVersion2`, `writeVersion2` and `validateLength`.

Conventions of the embedding:
* a byte is a natural number below 256, a `uint16` a natural number below 65536;
* a byte slice (`[]byte`, `net.IP`) is a `List Nat`, the nil slice being `[]`;
* the byte source is the list of bytes it has not yet delivered, with the size of
  its buffer, so the bytes a call consumed are exactly the prefix missing from the
  reader it returns;
* the process-wide counters of `state` are threaded through explicitly.
-/

namespace BfeProxy

/-! Declarations of the package that `v2.go` uses -/

/-- Modelled from the spec: the 12-byte signature constant `SIGV2`, declared outside
`v2.go`; the bytes are those of the wire-format table (offsets 0 to 11). -/
def SIGV2 : List Nat :=
  [0x0D, 0x0A, 0x0D, 0x0A, 0x00, 0x0D, 0x0A, 0x51, 0x55, 0x49, 0x54, 0x0A]

/-- Modelled from the spec: the version/command value `LOCAL`, declared outside `v2.go`:
high nibble 2 (version), low nibble 0. -/
def LOCAL : Nat := 0x20

/-- Modelled from the spec: the version/command value `PROXY`, declared outside `v2.go`:
high nibble 2 (version), low nibble 1. -/
def PROXY : Nat := 0x21

/-- Modelled from the spec: family/protocol value UNSPEC (both nibbles 0), declared outside
`v2.go`. -/
def UNSPEC : Nat := 0x00

/-- Modelled from the spec: family/protocol value TCP-over-IPv4 (INET, STREAM), declared
outside `v2.go`. -/
def TCPv4 : Nat := 0x11

/-- Modelled from the spec: family/protocol value UDP-over-IPv4 (INET, DGRAM), declared
outside `v2.go`. -/
def UDPv4 : Nat := 0x12

/-- Modelled from the spec: family/protocol value TCP-over-IPv6 (INET6, STREAM), declared
outside `v2.go`. -/
def TCPv6 : Nat := 0x21

/-- Modelled from the spec: family/protocol value UDP-over-IPv6 (INET6, DGRAM), declared
outside `v2.go`. -/
def UDPv6 : Nat := 0x22

/-- Modelled from the spec: family/protocol value UNIX-stream, declared outside `v2.go`. -/
def UnixStream : Nat := 0x31

/-- Modelled from the spec: family/protocol value UNIX-datagram, declared outside `v2.go`. -/
def UnixDatagram : Nat := 0x32

/-- Modelled from the spec: the table `supportedCommand`, declared outside `v2.go`; the
command enum is LOCAL and PROXY, every other byte is an unsupported command. -/
def supportedCommand (c : Nat) : Bool := c == LOCAL || c == PROXY

/-- Modelled from the spec: the table `supportedTransportProtocol`, declared outside
`v2.go`; the supported combinations are the two protocols of each of the three families
that have an address block (IPv4, IPv6, UNIX). -/
def supportedTransportProtocol (t : Nat) : Bool :=
  t == TCPv4 || t == UDPv4 || t == TCPv6 || t == UDPv6 || t == UnixStream || t == UnixDatagram

/-- Modelled from the spec: `ProtocolVersionAndCommand.IsLocal`, declared outside `v2.go`:
high nibble equal to version 2 and low nibble 0. -/
def IsLocal (c : Nat) : Bool := c / 16 % 16 == 2 && c % 16 == 0

/-- Modelled from the spec: `ProtocolVersionAndCommand.IsProxy`, declared outside `v2.go`:
high nibble equal to version 2 and low nibble 1. -/
def IsProxy (c : Nat) : Bool := c / 16 % 16 == 2 && c % 16 == 1

/-- Modelled from the spec: `AddressFamilyAndProtocol.IsIPv4`, declared outside `v2.go`:
the high nibble selects the family, 1 is INET. -/
def IsIPv4 (t : Nat) : Bool := t / 16 % 16 == 1

/-- Modelled from the spec: `AddressFamilyAndProtocol.IsIPv6`, declared outside `v2.go`:
the high nibble selects the family, 2 is INET6. -/
def IsIPv6 (t : Nat) : Bool := t / 16 % 16 == 2

/-- Modelled from the spec: `AddressFamilyAndProtocol.IsUnix`, declared outside `v2.go`:
the high nibble selects the family, 3 is UNIX. -/
def IsUnix (t : Nat) : Bool := t / 16 % 16 == 3

/-- Modelled from the spec: `AddressFamilyAndProtocol.IsStream`, declared outside `v2.go`:
the low nibble selects the protocol, 1 is STREAM. -/
def IsStream (t : Nat) : Bool := t % 16 == 1

/-- Modelled from the spec: `AddressFamilyAndProtocol.IsDatagram`, declared outside
`v2.go`: the low nibble selects the protocol, 2 is DGRAM. -/
def IsDatagram (t : Nat) : Bool := t % 16 == 2

/-- Modelled from the spec: `ProtocolVersionAndCommand.toByte`, declared outside `v2.go`:
the version/command byte of the wire table, `0x20` for LOCAL and `0x21` for PROXY. The spec
fixes no byte for any other value; such a value is written as LOCAL here. -/
def commandToByte (c : Nat) : Nat :=
  if IsLocal c then LOCAL else if IsProxy c then PROXY else LOCAL

/-- Modelled from the spec: `AddressFamilyAndProtocol.toByte`, declared outside `v2.go`:
the family/protocol byte of the wire table, family in the high nibble and protocol in the
low nibble. The spec fixes no byte for an unsupported combination; such a value is written
as UNSPEC here. -/
def transportToByte (t : Nat) : Nat :=
  if IsIPv4 t && IsStream t then TCPv4
  else if IsIPv4 t && IsDatagram t then UDPv4
  else if IsIPv6 t && IsStream t then TCPv6
  else if IsIPv6 t && IsDatagram t then UDPv6
  else if IsUnix t && IsStream t then UnixStream
  else if IsUnix t && IsDatagram t then UnixDatagram
  else UNSPEC

/-- Modelled from the spec: the error values that `v2.go` returns, declared outside it; one
constructor for each identifier. The spec's names for the paths are: SignatureUnreadable
(`ErrCantReadProtocolVersionAndCommand`), UnsupportedCommand
(`ErrUnsupportedProtocolVersionAndCommand`), UnsupportedFamily
(`ErrUnsupportedAddressFamilyAndProtocol`), LengthUnreadable (`ErrCantReadLength`),
LengthTooShortForFamily and AddressBlockTruncated (both return `ErrInvalidLength`),
AddressBlockMalformed (`ErrInvalidAddress`). -/
inductive Error where
  | ErrCantReadProtocolVersionAndCommand
  | ErrUnsupportedProtocolVersionAndCommand
  | ErrCantReadAddressFamilyAndProtocol
  | ErrUnsupportedAddressFamilyAndProtocol
  | ErrCantReadLength
  | ErrInvalidLength
  | ErrInvalidAddress
  deriving DecidableEq, Repr

/-- Modelled from the spec: the type `Header`, declared outside `v2.go`: version, command,
transport family, source and destination address (`net.IP`, a byte slice), source and
destination port (`uint16`). -/
structure Header where
  Version : Nat
  Command : Nat
  TransportProtocol : Nat
  SourceAddress : List Nat
  DestinationAddress : List Nat
  SourcePort : Nat
  DestinationPort : Nat
  deriving DecidableEq, Repr

/-- The value `new(Header)` allocates: every field zero, the addresses nil. -/
def Header.new : Header :=
  { Version := 0, Command := 0, TransportProtocol := 0, SourceAddress := [],
    DestinationAddress := [], SourcePort := 0, DestinationPort := 0 }

/-- Modelled from the spec: the counters of the package-level `state`, declared outside
`v2.go`: read-header-error, invalid-header and normal-v2-header. -/
structure State where
  ProxyErrReadHeader : Nat
  ProxyErrInvalidHeader : Nat
  ProxyNormalV2Header : Nat
  deriving DecidableEq, Repr

/-- The call `state.ProxyErrReadHeader.Inc(1)`. -/
def State.IncErrReadHeader (s : State) : State :=
  { s with ProxyErrReadHeader := s.ProxyErrReadHeader + 1 }

/-- The call `state.ProxyErrInvalidHeader.Inc(1)`. -/
def State.IncErrInvalidHeader (s : State) : State :=
  { s with ProxyErrInvalidHeader := s.ProxyErrInvalidHeader + 1 }

/-- The call `state.ProxyNormalV2Header.Inc(1)`. -/
def State.IncNormalV2Header (s : State) : State :=
  { s with ProxyNormalV2Header := s.ProxyNormalV2Header + 1 }

/-! The byte source -/

/-- Modelled from the spec: the byte source (`bfe_bufio.Reader`, a buffered reader),
declared outside `v2.go`, with the operations `readByte`, `peek` (non-consuming) and a
bounded sub-reader. The reader is the list of bytes it can still supply, the end of the
list being the end of the stream, together with the size of its buffer, which bounds every
lookahead. The capacity contract of the spec is part of the type: the byte source supports
peeking at least 218 bytes ahead. -/
structure Reader where
  unread : List Nat
  size : Nat
  hsize : 218 ≤ size
  deriving DecidableEq, Repr

/-- A reader with a buffer of 4096 bytes, the default size of Go's `bufio.NewReader`, on a
stream that delivers the bytes `input` and then ends. -/
def NewReader (input : List Nat) : Reader := ⟨input, 4096, by decide⟩

/-- The method `ReadByte`: the next byte, or a failure at the end of the stream. -/
def Reader.ReadByte (r : Reader) : Option Nat × Reader :=
  match r.unread with
  | [] => (none, r)
  | b :: bs => (some b, ⟨bs, r.size, r.hsize⟩)

/-- The method `Peek`: the next `n` bytes without advancing the reader, or a failure when
`n` is larger than the buffer (`ErrBufferFull`) or when the source cannot supply `n`
bytes. -/
def Reader.Peek (r : Reader) (n : Nat) : Option (List Nat) :=
  if n ≤ r.size ∧ n ≤ r.unread.length then some (r.unread.take n) else none

/-- The method `Read` with a destination of `n` bytes: the bytes available, at most `n`.
A single `Read` of the buffered reader delivers what its buffer holds; `parseVersion2` calls
it only after a `Peek` of the whole region has succeeded, which has buffered that region, so
the model delivers every byte that is left, up to `n`. -/
def Reader.Read (r : Reader) (n : Nat) : List Nat × Reader :=
  (r.unread.take n, ⟨r.unread.drop n, r.size, r.hsize⟩)

/-- Go's `io.LimitedReader`: the underlying reader and the number of bytes still allowed. -/
structure LimitedReader where
  R : Reader
  N : Nat
  deriving DecidableEq, Repr

/-- Go's `io.LimitReader`. -/
def LimitReader (r : Reader) (n : Nat) : LimitedReader := ⟨r, n⟩

/-- Go's `LimitedReader.Read` with a destination of `n` bytes: the destination is cut to
the `N` bytes still allowed, and `N` decreases by what was read. -/
def LimitedReader.Read (l : LimitedReader) (n : Nat) : List Nat × LimitedReader :=
  let p := l.R.Read (min n l.N)
  (p.1, ⟨p.2, l.N - p.1.length⟩)

/-- Go's `io.ReadFull` on a limited reader: exactly `n` bytes, or a failure after
consuming the fewer bytes that were available. -/
def ReadFull (l : LimitedReader) (n : Nat) : Option (List Nat) × LimitedReader :=
  let p := l.Read n
  if p.1.length = n then (some p.1, p.2) else (none, p.2)

/-- Go's `binary.BigEndian.Uint16` on two bytes. -/
def BigEndianUint16 (hi lo : Nat) : Nat := hi * 256 + lo

/-- Go's `binary.BigEndian.PutUint16` into a fresh 2-byte slice. -/
def PutUint16 (v : Nat) : List Nat := [v / 256 % 256, v % 256]

/-- Go's `binary.Read(r, binary.BigEndian, &length)` for a `uint16`. -/
def binaryReadUint16 (l : LimitedReader) : Option Nat × LimitedReader :=
  match ReadFull l 2 with
  | (some [hi, lo], l1) => (some (BigEndianUint16 hi lo), l1)
  | (_, l1) => (none, l1)

/-- The struct `_addr4`. -/
structure Addr4 where
  Src : List Nat
  Dst : List Nat
  SrcPort : Nat
  DstPort : Nat
  deriving DecidableEq, Repr

/-- The struct `_addr6` (the embedded `_ports` flattened). -/
structure Addr6 where
  Src : List Nat
  Dst : List Nat
  SrcPort : Nat
  DstPort : Nat
  deriving DecidableEq, Repr

/-- Go's `binary.Read(r, binary.BigEndian, &addr)` for an `_addr4`: 12 bytes, the fields
in declaration order. -/
def binaryReadAddr4 (l : LimitedReader) : Option Addr4 × LimitedReader :=
  match ReadFull l 12 with
  | (some bs, l1) =>
    (some { Src := bs.take 4, Dst := (bs.drop 4).take 4,
            SrcPort := BigEndianUint16 (bs.getD 8 0) (bs.getD 9 0),
            DstPort := BigEndianUint16 (bs.getD 10 0) (bs.getD 11 0) }, l1)
  | (none, l1) => (none, l1)

/-- Go's `binary.Read(r, binary.BigEndian, &addr)` for an `_addr6`: 36 bytes, the fields
in declaration order. -/
def binaryReadAddr6 (l : LimitedReader) : Option Addr6 × LimitedReader :=
  match ReadFull l 36 with
  | (some bs, l1) =>
    (some { Src := bs.take 16, Dst := (bs.drop 16).take 16,
            SrcPort := BigEndianUint16 (bs.getD 32 0) (bs.getD 33 0),
            DstPort := BigEndianUint16 (bs.getD 34 0) (bs.getD 35 0) }, l1)
  | (none, l1) => (none, l1)

/-- Go's `net.IP.To4`: a 4-byte address as it is, the last four bytes of a 16-byte
IPv4-mapped address, nil otherwise. -/
def To4 (ip : List Nat) : List Nat :=
  if ip.length = 4 then ip
  else if ip.length = 16 ∧ ip.take 10 = List.replicate 10 0 ∧ ip.getD 10 0 = 0xff
      ∧ ip.getD 11 0 = 0xff then ip.drop 12
  else []

/-- Go's `net.IP.To16`: a 4-byte address in its 16-byte IPv4-mapped form, a 16-byte
address as it is, nil otherwise. -/
def To16 (ip : List Nat) : List Nat :=
  if ip.length = 4 then List.replicate 10 0 ++ [0xff, 0xff] ++ ip
  else if ip.length = 16 then ip
  else []

/-! The code of `v2.go` -/

/-- The variable `lengthV4`. -/
def lengthV4 : Nat := 12

/-- The variable `lengthV6`. -/
def lengthV6 : Nat := 36

/-- The variable `lengthUnix`. -/
def lengthUnix : Nat := 218

/-- The variable `lengthV4Bytes`. -/
def lengthV4Bytes : List Nat := PutUint16 lengthV4

/-- The variable `lengthV6Bytes`. -/
def lengthV6Bytes : List Nat := PutUint16 lengthV6

/-- The variable `lengthUnixBytes`. -/
def lengthUnixBytes : List Nat := PutUint16 lengthUnix

/-- The method `validateLength`. -/
def validateLength (header : Header) (length : Nat) : Bool :=
  if IsIPv4 header.TransportProtocol then decide (length ≥ lengthV4)
  else if IsIPv6 header.TransportProtocol then decide (length ≥ lengthV6)
  else if IsUnix header.TransportProtocol then decide (length ≥ lengthUnix)
  else false

/-- What a call of `parseVersion2` leaves behind: the returned pair (a header, or an
error with a nil header), the reader after the call and the counters after the call. -/
structure Outcome where
  result : Except Error Header
  reader : Reader
  state : State

/-- The loop `for i := 0; i < 12; i++` of `parseVersion2`, with `n` iterations left:
`true` when every `ReadByte` succeeded. -/
def skipSignature : Nat → Reader → Bool × Reader
  | 0, reader => (true, reader)
  | n + 1, reader =>
    match reader.ReadByte with
    | (none, reader) => (false, reader)
    | (some _, reader) => skipSignature n reader

/-- The function `parseVersion2`. -/
def parseVersion2 (reader : Reader) (state : State) : Outcome :=
  -- Skip first 12 bytes (signature)
  match skipSignature 12 reader with
  | (false, reader) =>
    ⟨.error .ErrCantReadProtocolVersionAndCommand, reader, state.IncErrReadHeader⟩
  | (true, reader) =>
  let header : Header := { Header.new with Version := 2 }
  -- Read the 13th byte, protocol version and command
  match reader.ReadByte with
  | (none, reader) =>
    ⟨.error .ErrCantReadProtocolVersionAndCommand, reader, state.IncErrReadHeader⟩
  | (some b13, reader) =>
  let header : Header := { header with Command := b13 }
  if !supportedCommand header.Command then
    ⟨.error .ErrUnsupportedProtocolVersionAndCommand, reader, state.IncErrInvalidHeader⟩
  -- If command is LOCAL, header ends here
  else if IsLocal header.Command then
    ⟨.ok header, reader, state⟩
  else
  -- Read the 14th byte, address family and protocol
  match reader.ReadByte with
  | (none, reader) =>
    ⟨.error .ErrCantReadAddressFamilyAndProtocol, reader, state.IncErrReadHeader⟩
  | (some b14, reader) =>
  let header : Header := { header with TransportProtocol := b14 }
  if !supportedTransportProtocol header.TransportProtocol then
    ⟨.error .ErrUnsupportedAddressFamilyAndProtocol, reader, state.IncErrInvalidHeader⟩
  else
  -- Make sure there are bytes available as specified in length
  match binaryReadUint16 (LimitReader reader 2) with
  | (none, l) => ⟨.error .ErrCantReadLength, l.R, state.IncErrReadHeader⟩
  | (some length, l) =>
  let reader := l.R
  if !validateLength header length then
    ⟨.error .ErrInvalidLength, reader, state.IncErrInvalidHeader⟩
  else
  match reader.Peek length with
  | none => ⟨.error .ErrInvalidLength, reader, state.IncErrReadHeader⟩
  | some _ =>
  -- Length-limited reader for payload section
  let payloadReader := LimitReader reader length
  -- Read addresses and ports
  if IsIPv4 header.TransportProtocol then
    match binaryReadAddr4 payloadReader with
    | (none, payloadReader) =>
      ⟨.error .ErrInvalidAddress, payloadReader.R, state.IncErrReadHeader⟩
    | (some addr, payloadReader) =>
      let header : Header :=
        { header with SourceAddress := addr.Src, DestinationAddress := addr.Dst,
                      SourcePort := addr.SrcPort, DestinationPort := addr.DstPort }
      -- Drain the remaining padding
      let payloadReader := (payloadReader.Read length).2
      ⟨.ok header, payloadReader.R, state.IncNormalV2Header⟩
  else if IsIPv6 header.TransportProtocol then
    match binaryReadAddr6 payloadReader with
    | (none, payloadReader) =>
      ⟨.error .ErrInvalidAddress, payloadReader.R, state.IncErrReadHeader⟩
    | (some addr, payloadReader) =>
      let header : Header :=
        { header with SourceAddress := addr.Src, DestinationAddress := addr.Dst,
                      SourcePort := addr.SrcPort, DestinationPort := addr.DstPort }
      -- Drain the remaining padding
      let payloadReader := (payloadReader.Read length).2
      ⟨.ok header, payloadReader.R, state.IncNormalV2Header⟩
  else
    -- Drain the remaining padding
    let payloadReader := (payloadReader.Read length).2
    ⟨.ok header, payloadReader.R, state.IncNormalV2Header⟩

/-- The contents of `buf` when `writeVersion2` reaches `buf.WriteTo(w)`. The parameter
`ipString` stands for Go's `net.IP.String`, the textual form of an address, which only the
UNIX branch uses. -/
def writeVersion2Buf (ipString : List Nat → List Nat) (header : Header) : List Nat :=
  let buf := SIGV2
  let buf := buf ++ [commandToByte header.Command]
  if !IsLocal header.Command then
    let buf := buf ++ [transportToByte header.TransportProtocol]
    let (buf, addrSrc, addrDst) :=
      if IsIPv4 header.TransportProtocol then
        (buf ++ lengthV4Bytes, To4 header.SourceAddress, To4 header.DestinationAddress)
      else if IsIPv6 header.TransportProtocol then
        (buf ++ lengthV6Bytes, To16 header.SourceAddress, To16 header.DestinationAddress)
      else if IsUnix header.TransportProtocol then
        (buf ++ lengthUnixBytes, ipString header.SourceAddress,
          ipString header.DestinationAddress)
      else (buf, [], [])
    let buf := buf ++ addrSrc
    let buf := buf ++ addrDst
    let portSrcBytes := PutUint16 header.SourcePort
    let buf := buf ++ portSrcBytes
    let portDstBytes := PutUint16 header.DestinationPort
    let buf := buf ++ portDstBytes
    buf
  else buf

/-- The method `writeVersion2` on a writer that accepts every byte, the writer being the
list of bytes written to it so far: the writer after the call and the count the call
reports, the number of bytes of `buf`. -/
def writeVersion2 (ipString : List Nat → List Nat) (header : Header) (w : List Nat) :
    List Nat × Nat :=
  let buf := writeVersion2Buf ipString header
  (w ++ buf, buf.length)

/-! The reader operations on explicit inputs -/

theorem skipSignature_append (size : Nat) (hsize : 218 ≤ size) (sig tl : List Nat) :
    skipSignature sig.length ⟨sig ++ tl, size, hsize⟩ = (true, ⟨tl, size, hsize⟩) := by
  induction sig with
  | nil => simp [skipSignature]
  | cons a sig ih => simpa [skipSignature, Reader.ReadByte] using ih

theorem skipSignature_short (size : Nat) (hsize : 218 ≤ size) (n : Nat) (l : List Nat) (h :
    l.length < n) :
    skipSignature n ⟨l, size, hsize⟩ = (false, ⟨[], size, hsize⟩) := by
  induction n generalizing l with
  | zero => omega
  | succ n ih =>
    cases l with
    | nil => simp [skipSignature, Reader.ReadByte]
    | cons a l =>
      have h1 : l.length < n := by simpa using h
      simpa [skipSignature, Reader.ReadByte] using ih l h1

theorem readByte_cons (size : Nat) (hsize : 218 ≤ size) (b : Nat) (bs : List Nat) :
    Reader.ReadByte ⟨b :: bs, size, hsize⟩ = (some b, ⟨bs, size, hsize⟩) := rfl

theorem readByte_nil (size : Nat) (hsize : 218 ≤ size) : Reader.ReadByte ⟨[], size, hsize⟩ = (none,
    ⟨[], size, hsize⟩) := rfl

theorem binaryReadUint16_cons (size : Nat) (hsize : 218 ≤ size) (hi lo : Nat) (tl : List Nat) :
    binaryReadUint16 (LimitReader ⟨hi :: lo :: tl, size, hsize⟩ 2)
      = (some (BigEndianUint16 hi lo), ⟨⟨tl, size, hsize⟩, 0⟩) := by
  simp [binaryReadUint16, ReadFull, LimitedReader.Read, LimitReader, Reader.Read]

theorem binaryReadUint16_one (size : Nat) (hsize : 218 ≤ size) (b : Nat) :
    binaryReadUint16 (LimitReader ⟨[b], size, hsize⟩ 2) = (none, ⟨⟨[], size, hsize⟩, 1⟩) := by
  simp [binaryReadUint16, ReadFull, LimitedReader.Read, LimitReader, Reader.Read]

theorem binaryReadUint16_nil (size : Nat) (hsize : 218 ≤ size) :
    binaryReadUint16 (LimitReader ⟨[], size, hsize⟩ 2) = (none, ⟨⟨[], size, hsize⟩, 2⟩) := by
  simp [binaryReadUint16, ReadFull, LimitedReader.Read, LimitReader, Reader.Read]

theorem peek_eq (size : Nat) (hsize : 218 ≤ size) (l : List Nat) (n : Nat) :
    Reader.Peek ⟨l, size, hsize⟩ n = if n ≤ size ∧ n ≤ l.length then some (l.take n) else none :=
        rfl

theorem drain_eq (size : Nat) (hsize : 218 ≤ size) (l : List Nat) (N n : Nat) :
    (LimitedReader.Read ⟨⟨l, size, hsize⟩, N⟩ n).2.R = ⟨l.drop (min n N), size, hsize⟩ := rfl

theorem binaryReadAddr4_ok (size : Nat) (hsize : 218 ≤ size) (tl : List Nat) (L : Nat) (hmin : 12 ≤
    L) (hlen : L ≤ tl.length) :
    binaryReadAddr4 (LimitReader ⟨tl, size, hsize⟩ L)
      = (some { Src := tl.take 4, Dst := (tl.drop 4).take 4,
                SrcPort := BigEndianUint16 (tl.getD 8 0) (tl.getD 9 0),
                DstPort := BigEndianUint16 (tl.getD 10 0) (tl.getD 11 0) },
         ⟨⟨tl.drop 12, size, hsize⟩, L - 12⟩) := by
  have hL : min 12 L = 12 := by omega
  have hl : min 12 tl.length = 12 := by omega
  have hd : List.drop 4 (List.take 12 tl) = List.take 8 (List.drop 4 tl) := by
    rw [List.drop_take]
  have k8 : 8 < tl.length := by omega
  have k9 : 9 < tl.length := by omega
  have k10 : 10 < tl.length := by omega
  have k11 : 11 < tl.length := by omega
  simp [binaryReadAddr4, ReadFull, LimitedReader.Read, LimitReader, Reader.Read, hL, hl,
    List.take_take, List.getElem?_take, hd, List.getElem?_eq_getElem, k8, k9, k10, k11]

theorem binaryReadAddr6_ok (size : Nat) (hsize : 218 ≤ size) (tl : List Nat) (L : Nat) (hmin : 36 ≤
    L) (hlen : L ≤ tl.length) :
    binaryReadAddr6 (LimitReader ⟨tl, size, hsize⟩ L)
      = (some { Src := tl.take 16, Dst := (tl.drop 16).take 16,
                SrcPort := BigEndianUint16 (tl.getD 32 0) (tl.getD 33 0),
                DstPort := BigEndianUint16 (tl.getD 34 0) (tl.getD 35 0) },
         ⟨⟨tl.drop 36, size, hsize⟩, L - 36⟩) := by
  have hL : min 36 L = 36 := by omega
  have hl : min 36 tl.length = 36 := by omega
  have hd : List.drop 16 (List.take 36 tl) = List.take 20 (List.drop 16 tl) := by
    rw [List.drop_take]
  have k32 : 32 < tl.length := by omega
  have k33 : 33 < tl.length := by omega
  have k34 : 34 < tl.length := by omega
  have k35 : 35 < tl.length := by omega
  simp [binaryReadAddr6, ReadFull, LimitedReader.Read, LimitReader, Reader.Read, hL, hl,
    List.take_take, List.getElem?_take, hd, List.getElem?_eq_getElem, k32, k33, k34, k35]

/-! `parseVersion2` as a decision list -/

/-- An input shorter than the signature: the loop fails at the end of the stream. -/
theorem parseVersion2_short (size : Nat) (hsize : 218 ≤ size) (input : List Nat) (st : State) (h :
    input.length < 12) :
    parseVersion2 ⟨input, size, hsize⟩ st
      = ⟨.error .ErrCantReadProtocolVersionAndCommand, ⟨[], size, hsize⟩, st.IncErrReadHeader⟩ := by
  simp only [parseVersion2, skipSignature_short size hsize 12 input h]

/-- An input that ends with the signature: the 13th byte cannot be read. -/
theorem parseVersion2_sig (size : Nat) (hsize : 218 ≤ size) (sig : List Nat) (st : State) (hsig :
    sig.length = 12) :
    parseVersion2 ⟨sig, size, hsize⟩ st
      = ⟨.error .ErrCantReadProtocolVersionAndCommand, ⟨[], size, hsize⟩, st.IncErrReadHeader⟩ := by
  have hs := skipSignature_append size hsize sig []
  rw [hsig, List.append_nil] at hs
  simp only [parseVersion2, hs, readByte_nil size hsize]

/-- The behaviour of `parseVersion2` up to the command byte. -/
theorem parseVersion2_command (size : Nat) (hsize : 218 ≤ size) (sig tl : List Nat) (b12 : Nat) (st
    : State)
    (hsig : sig.length = 12) :
    (supportedCommand b12 = false →
      parseVersion2 ⟨sig ++ b12 :: tl, size, hsize⟩ st
        = ⟨.error .ErrUnsupportedProtocolVersionAndCommand, ⟨tl, size, hsize⟩,
            st.IncErrInvalidHeader⟩) ∧
    (supportedCommand b12 = true → IsLocal b12 = true →
      parseVersion2 ⟨sig ++ b12 :: tl, size, hsize⟩ st
        = ⟨.ok { Version := 2, Command := b12, TransportProtocol := 0, SourceAddress := [],
                 DestinationAddress := [], SourcePort := 0, DestinationPort := 0 },
            ⟨tl, size, hsize⟩, st⟩) := by
  have hs := skipSignature_append size hsize sig (b12 :: tl)
  rw [hsig] at hs
  constructor
  · intro hc
    simp [parseVersion2, hs, readByte_cons size hsize, hc]
  · intro hc hl
    simp [parseVersion2, hs, readByte_cons size hsize, hc, hl, Header.new]

/-- The behaviour of `parseVersion2` on an input that ends before the length field is
complete, for a command that is supported and not LOCAL. -/
theorem parseVersion2_cut (size : Nat) (hsize : 218 ≤ size) (sig : List Nat) (b12 : Nat) (st :
    State)
    (hsig : sig.length = 12) (hc : supportedCommand b12 = true) (hl : IsLocal b12 = false) :
    parseVersion2 ⟨sig ++ [b12], size, hsize⟩ st
        = ⟨.error .ErrCantReadAddressFamilyAndProtocol, ⟨[], size, hsize⟩, st.IncErrReadHeader⟩ ∧
    (∀ b13, supportedTransportProtocol b13 = false → ∀ tl,
      parseVersion2 ⟨sig ++ b12 :: b13 :: tl, size, hsize⟩ st
        = ⟨.error .ErrUnsupportedAddressFamilyAndProtocol, ⟨tl, size, hsize⟩,
            st.IncErrInvalidHeader⟩) ∧
    (∀ b13, supportedTransportProtocol b13 = true →
      parseVersion2 ⟨sig ++ [b12, b13], size, hsize⟩ st
        = ⟨.error .ErrCantReadLength, ⟨[], size, hsize⟩, st.IncErrReadHeader⟩) ∧
    (∀ b13 hi, supportedTransportProtocol b13 = true →
      parseVersion2 ⟨sig ++ [b12, b13, hi], size, hsize⟩ st
        = ⟨.error .ErrCantReadLength, ⟨[], size, hsize⟩, st.IncErrReadHeader⟩) := by
  refine ⟨?_, ?_, ?_, ?_⟩
  · have hs := skipSignature_append size hsize sig [b12]
    rw [hsig] at hs
    simp [parseVersion2, hs, readByte_cons size hsize, readByte_nil size hsize, hc, hl]
  · intro b13 ht tl
    have hs := skipSignature_append size hsize sig (b12 :: b13 :: tl)
    rw [hsig] at hs
    simp [parseVersion2, hs, readByte_cons size hsize, hc, hl, ht]
  · intro b13 ht
    have hs := skipSignature_append size hsize sig [b12, b13]
    rw [hsig] at hs
    simp [parseVersion2, hs, readByte_cons size hsize, hc, hl, ht, binaryReadUint16_nil size hsize]
  · intro b13 hi ht
    have hs := skipSignature_append size hsize sig [b12, b13, hi]
    rw [hsig] at hs
    simp [parseVersion2, hs, readByte_cons size hsize, hc, hl, ht, binaryReadUint16_one size hsize]

/-- The behaviour of `parseVersion2` on an input of 16 bytes or more, as a decision list
over the command byte, the family byte, the declared length and the bytes that follow. -/
theorem parseVersion2_frame (size : Nat) (hsize : 218 ≤ size) (sig tl : List Nat) (b12 b13 hi lo :
    Nat) (st : State)
    (hsig : sig.length = 12) :
    parseVersion2 ⟨sig ++ b12 :: b13 :: hi :: lo :: tl, size, hsize⟩ st =
      if supportedCommand b12 = false then
        ⟨.error .ErrUnsupportedProtocolVersionAndCommand, ⟨b13 :: hi :: lo :: tl, size, hsize⟩,
          st.IncErrInvalidHeader⟩
      else if IsLocal b12 = true then
        ⟨.ok { Version := 2, Command := b12, TransportProtocol := 0, SourceAddress := [],
               DestinationAddress := [], SourcePort := 0, DestinationPort := 0 },
          ⟨b13 :: hi :: lo :: tl, size, hsize⟩, st⟩
      else if supportedTransportProtocol b13 = false then
        ⟨.error .ErrUnsupportedAddressFamilyAndProtocol, ⟨hi :: lo :: tl, size, hsize⟩,
          st.IncErrInvalidHeader⟩
      else if validateLength
          { Version := 2, Command := b12, TransportProtocol := b13, SourceAddress := [],
            DestinationAddress := [], SourcePort := 0, DestinationPort := 0 }
          (BigEndianUint16 hi lo) = false then
        ⟨.error .ErrInvalidLength, ⟨tl, size, hsize⟩, st.IncErrInvalidHeader⟩
      else if size < BigEndianUint16 hi lo ∨ tl.length < BigEndianUint16 hi lo then
        ⟨.error .ErrInvalidLength, ⟨tl, size, hsize⟩, st.IncErrReadHeader⟩
      else if IsIPv4 b13 = true then
        ⟨.ok { Version := 2, Command := b12, TransportProtocol := b13,
               SourceAddress := tl.take 4, DestinationAddress := (tl.drop 4).take 4,
               SourcePort := BigEndianUint16 (tl.getD 8 0) (tl.getD 9 0),
               DestinationPort := BigEndianUint16 (tl.getD 10 0) (tl.getD 11 0) },
          ⟨tl.drop (BigEndianUint16 hi lo), size, hsize⟩, st.IncNormalV2Header⟩
      else if IsIPv6 b13 = true then
        ⟨.ok { Version := 2, Command := b12, TransportProtocol := b13,
               SourceAddress := tl.take 16, DestinationAddress := (tl.drop 16).take 16,
               SourcePort := BigEndianUint16 (tl.getD 32 0) (tl.getD 33 0),
               DestinationPort := BigEndianUint16 (tl.getD 34 0) (tl.getD 35 0) },
          ⟨tl.drop (BigEndianUint16 hi lo), size, hsize⟩, st.IncNormalV2Header⟩
      else
        ⟨.ok { Version := 2, Command := b12, TransportProtocol := b13, SourceAddress := [],
               DestinationAddress := [], SourcePort := 0, DestinationPort := 0 },
          ⟨tl.drop (BigEndianUint16 hi lo), size, hsize⟩, st.IncNormalV2Header⟩ := by
  have hs := skipSignature_append size hsize sig (b12 :: b13 :: hi :: lo :: tl)
  rw [hsig] at hs
  simp only [parseVersion2, hs, readByte_cons size hsize, binaryReadUint16_cons size hsize,
      Header.new]
  by_cases hc : supportedCommand b12 = false
  · simp [hc]
  by_cases hl : IsLocal b12 = true
  · simp [hc, hl]
  by_cases ht : supportedTransportProtocol b13 = false
  · simp [hc, hl, ht]
  by_cases hv : validateLength
          { Version := 2, Command := b12, TransportProtocol := b13, SourceAddress := [],
            DestinationAddress := [], SourcePort := 0, DestinationPort := 0 }
          (BigEndianUint16 hi lo) = false
  · simp [hc, hl, ht, hv]
  by_cases hp : size < BigEndianUint16 hi lo ∨ tl.length < BigEndianUint16 hi lo
  · have hp2 : ¬ (BigEndianUint16 hi lo ≤ size ∧ BigEndianUint16 hi lo ≤ tl.length) := by
      omega
    simp only [peek_eq size hsize, if_neg hp2]
    simp [hc, hl, ht, hv, hp]
  have hp1 : BigEndianUint16 hi lo ≤ size ∧ BigEndianUint16 hi lo ≤ tl.length := by omega
  have hp2 : BigEndianUint16 hi lo ≤ tl.length := hp1.2
  simp only [peek_eq size hsize, if_pos hp1]
  by_cases h4 : IsIPv4 b13 = true
  · have hmin : 12 ≤ BigEndianUint16 hi lo := by
      simp [validateLength, h4, lengthV4] at hv
      exact hv
    simp [hc, hl, ht, hv, hp, h4, binaryReadAddr4_ok size hsize _ _ hmin hp2,
      drain_eq size hsize]
    congr 1
    omega
  by_cases h6 : IsIPv6 b13 = true
  · have hmin : 36 ≤ BigEndianUint16 hi lo := by
      simp [validateLength, h4, h6, lengthV6] at hv
      exact hv
    simp [hc, hl, ht, hv, hp, h4, h6, binaryReadAddr6_ok size hsize _ _ hmin hp2,
      drain_eq size hsize]
    congr 1
    omega
  simp [hc, hl, ht, hv, hp, h4, h6, drain_eq size hsize, LimitReader]

/-- An input with bytes at offsets 12 to 15 splits into a 12-byte signature, those four
bytes and the bytes from offset 16 on. -/
theorem frame_of_index (input : List Nat) (a b c d : Nat)
    (h12 : input[12]? = some a) (h13 : input[13]? = some b)
    (h14 : input[14]? = some c) (h15 : input[15]? = some d) :
    input = input.take 12 ++ a :: b :: c :: d :: input.drop 16 := by
  obtain ⟨k12, e12⟩ := List.getElem?_eq_some_iff.mp h12
  obtain ⟨k13, e13⟩ := List.getElem?_eq_some_iff.mp h13
  obtain ⟨k14, e14⟩ := List.getElem?_eq_some_iff.mp h14
  obtain ⟨k15, e15⟩ := List.getElem?_eq_some_iff.mp h15
  conv_lhs => rw [← List.take_append_drop 12 input]
  rw [List.drop_eq_getElem_cons k12, List.drop_eq_getElem_cons k13,
    List.drop_eq_getElem_cons k14, List.drop_eq_getElem_cons k15, e12, e13, e14, e15]

/-- An input with a byte at offset 12 splits into a 12-byte signature, that byte and the
bytes from offset 13 on. -/
theorem command_of_index (input : List Nat) (a : Nat) (h12 : input[12]? = some a) :
    input = input.take 12 ++ a :: input.drop 13 := by
  obtain ⟨k12, e12⟩ := List.getElem?_eq_some_iff.mp h12
  conv_lhs => rw [← List.take_append_drop 12 input]
  rw [List.drop_eq_getElem_cons k12, e12]

theorem take12_length (input : List Nat) (a : Nat) (h12 : input[12]? = some a) :
    (input.take 12).length = 12 := by
  obtain ⟨k12, _⟩ := List.getElem?_eq_some_iff.mp h12
  simp [List.length_take]
  omega

/-! The encoder on explicit headers -/

theorem writeVersion2Buf_ipv4 (ipString : List Nat → List Nat) (h : Header)
    (hc : h.Command = PROXY) (ht : h.TransportProtocol = TCPv4 ∨ h.TransportProtocol = UDPv4) :
    writeVersion2Buf ipString h
      = SIGV2 ++ PROXY :: h.TransportProtocol :: 0 :: 12 ::
          (To4 h.SourceAddress ++ To4 h.DestinationAddress ++ PutUint16 h.SourcePort
            ++ PutUint16 h.DestinationPort) := by
  rcases ht with ht | ht <;>
  simp [writeVersion2Buf, hc, ht, IsLocal, IsProxy, commandToByte, transportToByte, IsIPv4,
    IsStream, IsDatagram, PROXY, LOCAL, TCPv4, UDPv4, lengthV4Bytes, lengthV4, PutUint16]

theorem writeVersion2Buf_ipv6 (ipString : List Nat → List Nat) (h : Header)
    (hc : h.Command = PROXY) (ht : h.TransportProtocol = TCPv6 ∨ h.TransportProtocol = UDPv6) :
    writeVersion2Buf ipString h
      = SIGV2 ++ PROXY :: h.TransportProtocol :: 0 :: 36 ::
          (To16 h.SourceAddress ++ To16 h.DestinationAddress ++ PutUint16 h.SourcePort
            ++ PutUint16 h.DestinationPort) := by
  rcases ht with ht | ht <;>
  simp [writeVersion2Buf, hc, ht, IsLocal, IsProxy, commandToByte, transportToByte, IsIPv4,
    IsIPv6, IsStream, IsDatagram, PROXY, LOCAL, TCPv6, UDPv6, lengthV6Bytes, lengthV6, PutUint16]

theorem writeVersion2Buf_unix (ipString : List Nat → List Nat) (h : Header)
    (hc : h.Command = PROXY)
    (ht : h.TransportProtocol = UnixStream ∨ h.TransportProtocol = UnixDatagram) :
    writeVersion2Buf ipString h
      = SIGV2 ++ PROXY :: h.TransportProtocol :: 0 :: 218 ::
          (ipString h.SourceAddress ++ ipString h.DestinationAddress ++ PutUint16 h.SourcePort
            ++ PutUint16 h.DestinationPort) := by
  rcases ht with ht | ht <;>
  simp [writeVersion2Buf, hc, ht, IsLocal, IsProxy, commandToByte, transportToByte, IsIPv4,
    IsIPv6, IsUnix, IsStream, IsDatagram, PROXY, LOCAL, UnixStream, UnixDatagram,
    lengthUnixBytes, lengthUnix, PutUint16]

theorem writeVersion2Buf_local (ipString : List Nat → List Nat) (h : Header)
    (hc : h.Command = LOCAL) : writeVersion2Buf ipString h = SIGV2 ++ [LOCAL] := by
  simp [writeVersion2Buf, hc, IsLocal, commandToByte, LOCAL]

theorem putUint16_decode (v : Nat) (hv : v < 65536) :
    BigEndianUint16 (v / 256 % 256) (v % 256) = v := by
  unfold BigEndianUint16
  omega

theorem SIGV2_length : SIGV2.length = 12 := rfl

theorem block_fields (A B : List Nat) (p q r s n : Nat) (hA : A.length = n)
    (hB : B.length = n) :
    (A ++ B ++ [p, q] ++ [r, s]).take n = A ∧
    ((A ++ B ++ [p, q] ++ [r, s]).drop n).take n = B ∧
    (A ++ B ++ [p, q] ++ [r, s]).getD (2 * n) 0 = p ∧
    (A ++ B ++ [p, q] ++ [r, s]).getD (2 * n + 1) 0 = q ∧
    (A ++ B ++ [p, q] ++ [r, s]).getD (2 * n + 2) 0 = r ∧
    (A ++ B ++ [p, q] ++ [r, s]).getD (2 * n + 3) 0 = s ∧
    (A ++ B ++ [p, q] ++ [r, s]).length = 2 * n + 4 ∧
    (A ++ B ++ [p, q] ++ [r, s]).drop (2 * n + 4) = [] := by
  have e : A ++ B ++ [p, q] ++ [r, s] = A ++ (B ++ [p, q, r, s]) := by simp
  have e2 : A ++ B ++ [p, q] ++ [r, s] = (A ++ B) ++ [p, q, r, s] := by simp
  have hAB : (A ++ B).length = 2 * n := by simp [hA, hB]; omega
  refine ⟨?_, ?_, ?_, ?_, ?_, ?_, ?_, ?_⟩
  · rw [e, List.take_left' hA]
  · rw [e, List.drop_left' hA, List.take_left' hB]
  · rw [e2, List.getD_eq_getElem?_getD, List.getElem?_append_right (by omega)]
    simp [hAB]
  · rw [e2, List.getD_eq_getElem?_getD, List.getElem?_append_right (by omega)]
    simp [hAB]
  · rw [e2, List.getD_eq_getElem?_getD, List.getElem?_append_right (by omega)]
    simp [hAB]
  · rw [e2, List.getD_eq_getElem?_getD, List.getElem?_append_right (by omega)]
    simp [hAB]
  · rw [e2, List.length_append, hAB]; rfl
  · apply List.drop_of_length_le
    rw [e2, List.length_append, hAB]
    simp

theorem supported_of_ipv4 (t : Nat) (ht : t = TCPv4 ∨ t = UDPv4) :
    supportedTransportProtocol t = true ∧ IsIPv4 t = true := by
  rcases ht with ht | ht <;> simp [ht, supportedTransportProtocol, IsIPv4, TCPv4, UDPv4]

theorem supported_of_ipv6 (t : Nat) (ht : t = TCPv6 ∨ t = UDPv6) :
    supportedTransportProtocol t = true ∧ IsIPv4 t = false ∧ IsIPv6 t = true := by
  rcases ht with ht | ht <;>
  simp [ht, supportedTransportProtocol, IsIPv4, IsIPv6, TCPv6, UDPv6, TCPv4, UDPv4]

theorem supported_of_unix (t : Nat) (ht : t = UnixStream ∨ t = UnixDatagram) :
    supportedTransportProtocol t = true ∧ IsIPv4 t = false ∧ IsIPv6 t = false
      ∧ IsUnix t = true := by
  rcases ht with ht | ht <;>
  simp [ht, supportedTransportProtocol, IsIPv4, IsIPv6, IsUnix, UnixStream, UnixDatagram,
    TCPv6, UDPv6, TCPv4, UDPv4]

/-- Decoding what the encoder writes for an IPv4 header whose addresses `To4` accepts. -/
theorem parse_write_ipv4_eq (size : Nat) (hsize : 218 ≤ size) (ipString : List Nat → List Nat) (h :
    Header) (st : State)
    (hc : h.Command = PROXY) (ht : h.TransportProtocol = TCPv4 ∨ h.TransportProtocol = UDPv4)
    (hs : (To4 h.SourceAddress).length = 4) (hd : (To4 h.DestinationAddress).length = 4)
    (hsp : h.SourcePort < 65536) (hdp : h.DestinationPort < 65536) :
    parseVersion2 ⟨writeVersion2Buf ipString h, size, hsize⟩ st
      = ⟨.ok { Version := 2, Command := PROXY, TransportProtocol := h.TransportProtocol,
               SourceAddress := To4 h.SourceAddress,
               DestinationAddress := To4 h.DestinationAddress,
               SourcePort := h.SourcePort, DestinationPort := h.DestinationPort },
          ⟨[], size, hsize⟩, st.IncNormalV2Header⟩ := by
  rw [writeVersion2Buf_ipv4 ipString h hc ht, parseVersion2_frame size hsize _ _ _ _ _ _ _
      SIGV2_length]
  obtain ⟨hsup, h4⟩ := supported_of_ipv4 _ ht
  have hL : BigEndianUint16 0 12 = 12 := rfl
  obtain ⟨f1, f2, f3, f4, f5, f6, f7, f8⟩ :=
    block_fields (To4 h.SourceAddress) (To4 h.DestinationAddress) (h.SourcePort / 256 % 256)
      (h.SourcePort % 256) (h.DestinationPort / 256 % 256) (h.DestinationPort % 256) 4 hs hd
  simp only [PutUint16, hL]
  rw [f1, f2, f3, f4, f5, f6, f7, f8]
  have hcap : 12 ≤ size := by omega
  simp [supportedCommand, IsLocal, PROXY, LOCAL, hsup, validateLength, h4, lengthV4,
    putUint16_decode _ hsp, putUint16_decode _ hdp, hcap]

/-- Decoding what the encoder writes for an IPv6 header whose addresses `To16` accepts. -/
theorem parse_write_ipv6_eq (size : Nat) (hsize : 218 ≤ size) (ipString : List Nat → List Nat) (h :
    Header) (st : State)
    (hc : h.Command = PROXY) (ht : h.TransportProtocol = TCPv6 ∨ h.TransportProtocol = UDPv6)
    (hs : (To16 h.SourceAddress).length = 16) (hd : (To16 h.DestinationAddress).length = 16)
    (hsp : h.SourcePort < 65536) (hdp : h.DestinationPort < 65536) :
    parseVersion2 ⟨writeVersion2Buf ipString h, size, hsize⟩ st
      = ⟨.ok { Version := 2, Command := PROXY, TransportProtocol := h.TransportProtocol,
               SourceAddress := To16 h.SourceAddress,
               DestinationAddress := To16 h.DestinationAddress,
               SourcePort := h.SourcePort, DestinationPort := h.DestinationPort },
          ⟨[], size, hsize⟩, st.IncNormalV2Header⟩ := by
  rw [writeVersion2Buf_ipv6 ipString h hc ht, parseVersion2_frame size hsize _ _ _ _ _ _ _
      SIGV2_length]
  obtain ⟨hsup, h4, h6⟩ := supported_of_ipv6 _ ht
  have hL : BigEndianUint16 0 36 = 36 := rfl
  obtain ⟨f1, f2, f3, f4, f5, f6, f7, f8⟩ :=
    block_fields (To16 h.SourceAddress) (To16 h.DestinationAddress) (h.SourcePort / 256 % 256)
      (h.SourcePort % 256) (h.DestinationPort / 256 % 256) (h.DestinationPort % 256) 16 hs hd
  simp only [PutUint16, hL]
  rw [f1, f2, f3, f4, f5, f6, f7, f8]
  have hcap : 36 ≤ size := by omega
  simp [supportedCommand, IsLocal, PROXY, LOCAL, hsup, validateLength, h4, h6, lengthV6,
    putUint16_decode _ hsp, putUint16_decode _ hdp, hcap]

/-- Decoding what the encoder writes for a UNIX header: the encoder declares 218 bytes, and
the decoder rejects the header when the two address texts and the ports are fewer. -/
theorem parse_write_unix_eq (size : Nat) (hsize : 218 ≤ size) (ipString : List Nat → List Nat) (h :
    Header) (st : State)
    (hc : h.Command = PROXY)
    (ht : h.TransportProtocol = UnixStream ∨ h.TransportProtocol = UnixDatagram)
    (hlen : (ipString h.SourceAddress).length + (ipString h.DestinationAddress).length + 4
      < 218) :
    parseVersion2 ⟨writeVersion2Buf ipString h, size, hsize⟩ st
      = ⟨.error .ErrInvalidLength,
          ⟨ipString h.SourceAddress ++ ipString h.DestinationAddress
            ++ PutUint16 h.SourcePort ++ PutUint16 h.DestinationPort, size, hsize⟩,
          st.IncErrReadHeader⟩ := by
  rw [writeVersion2Buf_unix ipString h hc ht, parseVersion2_frame size hsize _ _ _ _ _ _ _
      SIGV2_length]
  obtain ⟨hsup, h4, h6, hu⟩ := supported_of_unix _ ht
  have hL : BigEndianUint16 0 218 = 218 := rfl
  have hl : (ipString h.SourceAddress ++ ipString h.DestinationAddress
            ++ PutUint16 h.SourcePort ++ PutUint16 h.DestinationPort).length < 218 := by
    simp [PutUint16]
    omega
  simp only [hL, hl]
  simp [supportedCommand, IsLocal, PROXY, LOCAL, hsup, validateLength, h4, h6, hu, lengthUnix]

/-! The claims -/

/-- C1, as stated, fails: a Header with command PROXY, transport TCP-over-IPv4 and nil
addresses is encoded to 20 bytes that declare a 12-byte address block and supply 4, and
`parseVersion2` rejects them. The IPv4 branch of the encoder never calls `ipString`, which
is passed as `id`. -/
theorem ipv4_nil_addresses_rejected :
    (parseVersion2
      (NewReader (writeVersion2 id
          { Version := 2, Command := PROXY, TransportProtocol := TCPv4, SourceAddress := [],
            DestinationAddress := [], SourcePort := 1234, DestinationPort := 443 } []).1)
      ⟨0, 0, 0⟩).result = .error .ErrInvalidLength := by
  rfl

/-- C1, amended: round trip for IPv4. For every Header with command PROXY, transport
TCP-over-IPv4 or UDP-over-IPv4, source and destination addresses that `To4` accepts (4
bytes, or 16 bytes in the IPv4-mapped form) and 16-bit ports, `parseVersion2` on the bytes
written by `writeVersion2` succeeds and returns the same command, transport and ports, and
as addresses the 4-byte forms of the header's addresses, which are the addresses themselves
whenever these are 4 bytes long. -/
theorem roundtrip_ipv4 (ipString : List Nat → List Nat) (h : Header) (reader : Reader)
    (st : State) (hbytes : reader.unread = (writeVersion2 ipString h []).1)
    (hc : h.Command = PROXY) (ht : h.TransportProtocol = TCPv4 ∨ h.TransportProtocol = UDPv4)
    (hs : (To4 h.SourceAddress).length = 4) (hd : (To4 h.DestinationAddress).length = 4)
    (hsp : h.SourcePort < 65536) (hdp : h.DestinationPort < 65536) :
    ∃ h' : Header,
      (parseVersion2 reader st).result = .ok h' ∧
      h'.Command = h.Command ∧ h'.TransportProtocol = h.TransportProtocol ∧
      h'.SourceAddress = To4 h.SourceAddress ∧
      h'.DestinationAddress = To4 h.DestinationAddress ∧
      h'.SourcePort = h.SourcePort ∧ h'.DestinationPort = h.DestinationPort ∧
      (h.SourceAddress.length = 4 → h'.SourceAddress = h.SourceAddress) ∧
      (h.DestinationAddress.length = 4 → h'.DestinationAddress = h.DestinationAddress) := by
  obtain ⟨input, size, hsize⟩ := reader
  dsimp only at hbytes
  subst hbytes
  have e := parse_write_ipv4_eq size hsize ipString h st hc ht hs hd hsp hdp
  simp only [writeVersion2, List.nil_append]
  rw [e]
  refine ⟨_, rfl, ?_⟩
  · refine ⟨hc.symm, rfl, rfl, rfl, rfl, rfl, ?_, ?_⟩
    · intro h4
      simp [To4, h4]
    · intro h4
      simp [To4, h4]

/-- Witness of C1: the header PROXY, TCP-over-IPv4, 1.2.3.4:1234 to 5.6.7.8:443. -/
theorem roundtrip_ipv4_witness :
    ∃ h' : Header,
      (parseVersion2 (NewReader (writeVersion2 id
          { Version := 2, Command := PROXY, TransportProtocol := TCPv4,
            SourceAddress := [1, 2, 3, 4], DestinationAddress := [5, 6, 7, 8],
            SourcePort := 1234, DestinationPort := 443 } []).1) ⟨0, 0, 0⟩).result = .ok h' ∧
      h'.Command = PROXY ∧ h'.TransportProtocol = TCPv4 ∧
      h'.SourceAddress = [1, 2, 3, 4] ∧ h'.DestinationAddress = [5, 6, 7, 8] ∧
      h'.SourcePort = 1234 ∧ h'.DestinationPort = 443 ∧
      (4 = 4 → h'.SourceAddress = [1, 2, 3, 4]) ∧
      (4 = 4 → h'.DestinationAddress = [5, 6, 7, 8]) :=
  roundtrip_ipv4 id
    { Version := 2, Command := PROXY, TransportProtocol := TCPv4,
      SourceAddress := [1, 2, 3, 4], DestinationAddress := [5, 6, 7, 8],
      SourcePort := 1234, DestinationPort := 443 }
    (NewReader (writeVersion2 id
      { Version := 2, Command := PROXY, TransportProtocol := TCPv4,
        SourceAddress := [1, 2, 3, 4], DestinationAddress := [5, 6, 7, 8],
        SourcePort := 1234, DestinationPort := 443 } []).1) ⟨0, 0, 0⟩ rfl rfl (Or.inl rfl)
    (by decide) (by decide) (by decide) (by decide)

/-- C2, as stated, fails: a Header with command PROXY, transport TCP-over-IPv6 and nil
addresses is encoded to 20 bytes that declare a 36-byte address block and supply 4, and
`parseVersion2` rejects them. The IPv6 branch of the encoder never calls `ipString`, which
is passed as `id`. -/
theorem ipv6_nil_addresses_rejected :
    (parseVersion2
      (NewReader (writeVersion2 id
          { Version := 2, Command := PROXY, TransportProtocol := TCPv6, SourceAddress := [],
            DestinationAddress := [], SourcePort := 1234, DestinationPort := 443 } []).1)
      ⟨0, 0, 0⟩).result = .error .ErrInvalidLength := by
  rfl

/-- C2, amended: round trip for IPv6. For every Header with command PROXY, transport
TCP-over-IPv6 or UDP-over-IPv6, source and destination addresses that `To16` accepts (16
bytes, or 4 bytes) and 16-bit ports, `parseVersion2` on the bytes written by `writeVersion2`
succeeds and returns the same command, transport and ports, and as addresses the 16-byte
forms of the header's addresses, which are the addresses themselves whenever these are 16
bytes long. -/
theorem roundtrip_ipv6 (ipString : List Nat → List Nat) (h : Header) (reader : Reader)
    (st : State) (hbytes : reader.unread = (writeVersion2 ipString h []).1)
    (hc : h.Command = PROXY) (ht : h.TransportProtocol = TCPv6 ∨ h.TransportProtocol = UDPv6)
    (hs : (To16 h.SourceAddress).length = 16) (hd : (To16 h.DestinationAddress).length = 16)
    (hsp : h.SourcePort < 65536) (hdp : h.DestinationPort < 65536) :
    ∃ h' : Header,
      (parseVersion2 reader st).result = .ok h' ∧
      h'.Command = h.Command ∧ h'.TransportProtocol = h.TransportProtocol ∧
      h'.SourceAddress = To16 h.SourceAddress ∧
      h'.DestinationAddress = To16 h.DestinationAddress ∧
      h'.SourcePort = h.SourcePort ∧ h'.DestinationPort = h.DestinationPort ∧
      (h.SourceAddress.length = 16 → h'.SourceAddress = h.SourceAddress) ∧
      (h.DestinationAddress.length = 16 → h'.DestinationAddress = h.DestinationAddress) := by
  obtain ⟨input, size, hsize⟩ := reader
  dsimp only at hbytes
  subst hbytes
  have e := parse_write_ipv6_eq size hsize ipString h st hc ht hs hd hsp hdp
  simp only [writeVersion2, List.nil_append]
  rw [e]
  refine ⟨_, rfl, ?_⟩
  · refine ⟨hc.symm, rfl, rfl, rfl, rfl, rfl, ?_, ?_⟩
    · intro h16
      simp [To16, h16]
    · intro h16
      simp [To16, h16]

/-- Witness of C2: the header PROXY, UDP-over-IPv6, from 2001:db8::1 port 1234 to
2001:db8::2 port 443. -/
theorem roundtrip_ipv6_witness :
    ∃ h' : Header,
      (parseVersion2 (NewReader (writeVersion2 id
          { Version := 2, Command := PROXY, TransportProtocol := UDPv6,
            SourceAddress := [0x20, 0x01, 0x0d, 0xb8, 0, 0, 0, 0, 0, 0, 0, 0, 0, 0, 0, 1],
            DestinationAddress := [0x20, 0x01, 0x0d, 0xb8, 0, 0, 0, 0, 0, 0, 0, 0, 0, 0, 0, 2],
            SourcePort := 1234, DestinationPort := 443 } []).1) ⟨0, 0, 0⟩).result = .ok h' ∧
      h'.Command = PROXY ∧ h'.TransportProtocol = UDPv6 ∧
      h'.SourceAddress = [0x20, 0x01, 0x0d, 0xb8, 0, 0, 0, 0, 0, 0, 0, 0, 0, 0, 0, 1] ∧
      h'.DestinationAddress = [0x20, 0x01, 0x0d, 0xb8, 0, 0, 0, 0, 0, 0, 0, 0, 0, 0, 0, 2] ∧
      h'.SourcePort = 1234 ∧ h'.DestinationPort = 443 ∧
      (16 = 16 → h'.SourceAddress
        = [0x20, 0x01, 0x0d, 0xb8, 0, 0, 0, 0, 0, 0, 0, 0, 0, 0, 0, 1]) ∧
      (16 = 16 → h'.DestinationAddress
        = [0x20, 0x01, 0x0d, 0xb8, 0, 0, 0, 0, 0, 0, 0, 0, 0, 0, 0, 2]) :=
  roundtrip_ipv6 id
    { Version := 2, Command := PROXY, TransportProtocol := UDPv6,
      SourceAddress := [0x20, 0x01, 0x0d, 0xb8, 0, 0, 0, 0, 0, 0, 0, 0, 0, 0, 0, 1],
      DestinationAddress := [0x20, 0x01, 0x0d, 0xb8, 0, 0, 0, 0, 0, 0, 0, 0, 0, 0, 0, 2],
      SourcePort := 1234, DestinationPort := 443 }
    (NewReader (writeVersion2 id
      { Version := 2, Command := PROXY, TransportProtocol := UDPv6,
        SourceAddress := [0x20, 0x01, 0x0d, 0xb8, 0, 0, 0, 0, 0, 0, 0, 0, 0, 0, 0, 1],
        DestinationAddress := [0x20, 0x01, 0x0d, 0xb8, 0, 0, 0, 0, 0, 0, 0, 0, 0, 0, 0, 2],
        SourcePort := 1234, DestinationPort := 443 } []).1) ⟨0, 0, 0⟩ rfl rfl (Or.inr rfl)
    (by decide) (by decide) (by decide) (by decide)

theorem getD_frame (sig tl : List Nat) (b12 b13 hi lo : Nat) (hsig : sig.length = 12) :
    (sig ++ b12 :: b13 :: hi :: lo :: tl).getD 14 0 = hi ∧
    (sig ++ b12 :: b13 :: hi :: lo :: tl).getD 15 0 = lo ∧
    (sig ++ b12 :: b13 :: hi :: lo :: tl).length = 16 + tl.length ∧
    ∀ n, (sig ++ b12 :: b13 :: hi :: lo :: tl).drop (16 + n) = tl.drop n := by
  refine ⟨?_, ?_, ?_, ?_⟩
  · rw [List.getD_eq_getElem?_getD, List.getElem?_append_right (by omega)]
    simp [hsig]
  · rw [List.getD_eq_getElem?_getD, List.getElem?_append_right (by omega)]
    simp [hsig]
  · simp [hsig]
    omega
  · intro n
    have e : sig ++ b12 :: b13 :: hi :: lo :: tl = (sig ++ [b12, b13, hi, lo]) ++ tl := by simp
    rw [e, List.drop_append_eq_append_drop]
    have hl : (sig ++ [b12, b13, hi, lo]).length = 16 := by simp [hsig]
    rw [List.drop_of_length_le (by omega), hl]
    simp

theorem local_ne_proxy (b : Nat) (h : IsLocal b = true) : b ≠ PROXY := by
  intro e
  rw [e] at h
  simp [IsLocal, PROXY] at h

/-- C3: bounded consumption. Whenever `parseVersion2` succeeds with command PROXY, the
input holds at least 16 + L bytes, L being the big-endian 16-bit value at offsets 14 and
15, and the reader it leaves holds exactly the bytes of the input from offset 16 + L on:
16 + L bytes were consumed and every later byte is left unread. -/
theorem parseVersion2_consumes_declared_length (reader : Reader) (st : State) (h : Header)
    (hok : (parseVersion2 reader st).result = .ok h) (hcmd : h.Command = PROXY) :
    16 + BigEndianUint16 (reader.unread.getD 14 0) (reader.unread.getD 15 0)
      ≤ reader.unread.length ∧
    (parseVersion2 reader st).reader
      = ⟨reader.unread.drop
          (16 + BigEndianUint16 (reader.unread.getD 14 0) (reader.unread.getD 15 0)),
          reader.size, reader.hsize⟩ := by
  obtain ⟨input, size, hsize⟩ := reader
  dsimp only at *
  by_cases hlen : input.length < 12
  · rw [parseVersion2_short size hsize input st hlen] at hok
    cases hok
  obtain ⟨sig, rest, rfl, hsig⟩ : ∃ sig rest, input = sig ++ rest ∧ sig.length = 12 :=
    ⟨input.take 12, input.drop 12, (List.take_append_drop 12 input).symm, by
      simp [List.length_take]; omega⟩
  match rest with
  | [] =>
    rw [List.append_nil, parseVersion2_sig size hsize sig st hsig] at hok
    cases hok
  | b12 :: r1 =>
    by_cases hc : supportedCommand b12 = false
    · rw [(parseVersion2_command size hsize sig r1 b12 st hsig).1 hc] at hok
      cases hok
    have hc1 : supportedCommand b12 = true := by simpa using hc
    by_cases hl : IsLocal b12 = true
    · rw [(parseVersion2_command size hsize sig r1 b12 st hsig).2 hc1 hl] at hok
      injection hok with hh
      rw [← hh] at hcmd
      exact absurd hcmd (local_ne_proxy b12 hl)
    have hl1 : IsLocal b12 = false := by simpa using hl
    obtain ⟨k1, k2, k3, k4⟩ := parseVersion2_cut size hsize sig b12 st hsig hc1 hl1
    match r1 with
    | [] => rw [k1] at hok; cases hok
    | b13 :: r2 =>
      by_cases ht : supportedTransportProtocol b13 = false
      · rw [k2 b13 ht r2] at hok
        cases hok
      have ht1 : supportedTransportProtocol b13 = true := by simpa using ht
      match r2 with
      | [] => rw [k3 b13 ht1] at hok; cases hok
      | [hi] => rw [k4 b13 hi ht1] at hok; cases hok
      | hi :: lo :: tl =>
        obtain ⟨g1, g2, g3, g4⟩ := getD_frame sig tl b12 b13 hi lo hsig
        rw [g1, g2, g3, g4]
        rw [parseVersion2_frame size hsize sig tl b12 b13 hi lo st hsig] at hok ⊢
        rw [if_neg hc, if_neg hl, if_neg ht] at hok ⊢
        by_cases hv : validateLength
            { Version := 2, Command := b12, TransportProtocol := b13, SourceAddress := [],
              DestinationAddress := [], SourcePort := 0, DestinationPort := 0 }
            (BigEndianUint16 hi lo) = false
        · rw [if_pos hv] at hok
          cases hok
        rw [if_neg hv] at hok ⊢
        by_cases hp : size < BigEndianUint16 hi lo ∨ tl.length < BigEndianUint16 hi lo
        · rw [if_pos hp] at hok
          cases hok
        rw [if_neg hp]
        refine ⟨by omega, ?_⟩
        split_ifs <;> rfl

/-- Witness of C3: a TCP-over-IPv4 header that declares 14 bytes (the address block and
two more), followed by two bytes of application data, which are left unread. -/
theorem parseVersion2_consumes_declared_length_witness :
    16 + BigEndianUint16 0 14 ≤ 32 ∧
    (parseVersion2 (NewReader (SIGV2 ++ [0x21, 0x11, 0, 14, 1, 2, 3, 4, 5, 6, 7, 8, 4, 210,
        1, 187, 9, 9, 71, 69])) ⟨0, 0, 0⟩).reader = NewReader [71, 69] :=
  ⟨by decide,
    (parseVersion2_consumes_declared_length
      (NewReader (SIGV2 ++ [0x21, 0x11, 0, 14, 1, 2, 3, 4, 5, 6, 7, 8, 4, 210, 1, 187,
        9, 9, 71, 69]))
      ⟨0, 0, 0⟩
      { Version := 2, Command := PROXY, TransportProtocol := TCPv4,
        SourceAddress := [1, 2, 3, 4], DestinationAddress := [5, 6, 7, 8],
        SourcePort := 1234, DestinationPort := 443 } (by rfl) rfl).2⟩

theorem getD_drop16 (input : List Nat) (n : Nat) :
    (input.drop 16).getD n 0 = input.getD (16 + n) 0 := by
  simp [List.getD_eq_getElem?_getD, List.getElem?_drop]

/-- A declared length beyond the reader's buffer: the lookahead fails whatever bytes
follow, and the reader stays right after the length field. -/
theorem parseVersion2_over_capacity (size : Nat) (hsize : 218 ≤ size) (sig tl : List Nat)
    (b13 hi lo : Nat) (st : State) (hsig : sig.length = 12)
    (hsup : supportedTransportProtocol b13 = true)
    (hv : validateLength
      { Version := 2, Command := PROXY, TransportProtocol := b13, SourceAddress := [],
        DestinationAddress := [], SourcePort := 0, DestinationPort := 0 }
      (BigEndianUint16 hi lo) = true)
    (hcap : size < BigEndianUint16 hi lo) :
    parseVersion2 ⟨sig ++ PROXY :: b13 :: hi :: lo :: tl, size, hsize⟩ st
      = ⟨.error .ErrInvalidLength, ⟨tl, size, hsize⟩, st.IncErrReadHeader⟩ := by
  have hc : ¬ supportedCommand PROXY = false := by decide
  have hl : ¬ IsLocal PROXY = true := by decide
  rw [parseVersion2_frame size hsize sig tl PROXY b13 hi lo st hsig, if_neg hc, if_neg hl,
    if_neg (by simp [hsup]), if_neg (by simp [hv]), if_pos (Or.inl hcap)]

/-- C4, as stated, fails: a TCP-over-IPv4 header that declares L = 4097 bytes and is
followed by 4097 bytes (an input of 16 + L bytes, L at least 12), read through a reader
with the default buffer of 4096 bytes, is rejected: the lookahead of 4097 bytes does not
fit the buffer and `parseVersion2` returns `ErrInvalidLength`. -/
theorem layout_rejected_beyond_buffer :
    16 + BigEndianUint16 0x10 0x01
      ≤ (SIGV2 ++ 0x21 :: 0x11 :: 0x10 :: 0x01 :: List.replicate 4097 0).length ∧
    12 ≤ BigEndianUint16 0x10 0x01 ∧
    (parseVersion2 (NewReader (SIGV2 ++ 0x21 :: 0x11 :: 0x10 :: 0x01 :: List.replicate 4097 0))
      ⟨0, 0, 0⟩).result = .error .ErrInvalidLength :=
  ⟨by
      rw [List.length_append, List.length_cons, List.length_cons, List.length_cons,
        List.length_cons, List.length_replicate]
      decide,
    by decide,
    congrArg Outcome.result
      (parseVersion2_over_capacity 4096 (by decide) SIGV2 (List.replicate 4097 0) 0x11 0x10 0x01
        ⟨0, 0, 0⟩ rfl (by decide) (by decide) (by decide))⟩

/-- C4, amended: decoded field layout. On every input of at least 16 + L bytes whose byte
12 is 0x21, whose byte 13 is TCP-over-IPv4 or UDP-over-IPv4 (resp. TCP-over-IPv6 or
UDP-over-IPv6) and whose declared length L is at least 12 (resp. 36) and at most the size
of the reader's buffer, `parseVersion2` returns a header with version 2, command PROXY,
that transport, the 4 (resp. 16) bytes at offset 16 as source address, the next 4 (resp.
16) bytes as destination address and the next two big-endian 16-bit values as source and
destination port. The header is a function of bytes 13 and 16 to 27 (resp. 16 to 51)
alone, so the rest of the region does not influence it. -/
theorem parseVersion2_layout (reader : Reader) (st : State) (b13 hi lo : Nat)
    (h12 : reader.unread[12]? = some 0x21) (h13 : reader.unread[13]? = some b13)
    (h14 : reader.unread[14]? = some hi) (h15 : reader.unread[15]? = some lo)
    (hlen : 16 + BigEndianUint16 hi lo ≤ reader.unread.length)
    (hcap : BigEndianUint16 hi lo ≤ reader.size) :
    ((b13 = TCPv4 ∨ b13 = UDPv4) → 12 ≤ BigEndianUint16 hi lo →
      (parseVersion2 reader st).result
        = .ok { Version := 2, Command := PROXY, TransportProtocol := b13,
                SourceAddress := (reader.unread.drop 16).take 4,
                DestinationAddress := (reader.unread.drop 20).take 4,
                SourcePort :=
                  BigEndianUint16 (reader.unread.getD 24 0) (reader.unread.getD 25 0),
                DestinationPort :=
                  BigEndianUint16 (reader.unread.getD 26 0) (reader.unread.getD 27 0) }) ∧
    ((b13 = TCPv6 ∨ b13 = UDPv6) → 36 ≤ BigEndianUint16 hi lo →
      (parseVersion2 reader st).result
        = .ok { Version := 2, Command := PROXY, TransportProtocol := b13,
                SourceAddress := (reader.unread.drop 16).take 16,
                DestinationAddress := (reader.unread.drop 32).take 16,
                SourcePort :=
                  BigEndianUint16 (reader.unread.getD 48 0) (reader.unread.getD 49 0),
                DestinationPort :=
                  BigEndianUint16 (reader.unread.getD 50 0) (reader.unread.getD 51 0) }) := by
  obtain ⟨input, size, hsize⟩ := reader
  dsimp only at *
  have hsig := take12_length input _ h12
  have hin := frame_of_index input _ b13 hi lo h12 h13 h14 h15
  have hfr := parseVersion2_frame size hsize (input.take 12) (input.drop 16) 0x21 b13 hi lo st hsig
  rw [← hin] at hfr
  have hp : ¬ (size < BigEndianUint16 hi lo
      ∨ (input.drop 16).length < BigEndianUint16 hi lo) := by
    rw [List.length_drop]
    omega
  have hc : ¬ supportedCommand 0x21 = false := by decide
  have hl : ¬ IsLocal 0x21 = true := by decide
  rw [if_neg hc, if_neg hl] at hfr
  constructor
  · intro ht hmin
    obtain ⟨hsup, h4⟩ := supported_of_ipv4 _ ht
    have hv : validateLength
        { Version := 2, Command := 0x21, TransportProtocol := b13, SourceAddress := [],
          DestinationAddress := [], SourcePort := 0, DestinationPort := 0 }
        (BigEndianUint16 hi lo) = true := by
      simp [validateLength, h4, lengthV4, hmin]
    rw [hfr, if_neg (by simp [hsup]), if_neg (by simp [hv]), if_neg hp, if_pos h4]
    simp [getD_drop16, PROXY, List.drop_drop]
  · intro ht hmin
    obtain ⟨hsup, h4, h6⟩ := supported_of_ipv6 _ ht
    have hv : validateLength
        { Version := 2, Command := 0x21, TransportProtocol := b13, SourceAddress := [],
          DestinationAddress := [], SourcePort := 0, DestinationPort := 0 }
        (BigEndianUint16 hi lo) = true := by
      simp [validateLength, h4, h6, lengthV6, hmin]
    rw [hfr, if_neg (by simp [hsup]), if_neg (by simp [hv]), if_neg hp,
      if_neg (by simp [h4]), if_pos h6]
    simp [getD_drop16, PROXY, List.drop_drop]

/-- Witness of C4, the example of the specification: signature, 0x21, 0x11, length 0x000C,
01 02 03 04, 05 06 07 08, 0x04D2, 0x01BB decodes to PROXY, TCP-over-IPv4, 1.2.3.4,
5.6.7.8, ports 1234 and 443. -/
theorem parseVersion2_layout_witness :
    (parseVersion2 (NewReader ([0x0D, 0x0A, 0x0D, 0x0A, 0x00, 0x0D, 0x0A, 0x51, 0x55, 0x49, 0x54,
        0x0A,
        0x21, 0x11, 0x00, 0x0C, 0x01, 0x02, 0x03, 0x04, 0x05, 0x06, 0x07, 0x08,
        0x04, 0xD2, 0x01, 0xBB])) ⟨0, 0, 0⟩).result
      = .ok { Version := 2, Command := PROXY, TransportProtocol := TCPv4,
              SourceAddress := [1, 2, 3, 4], DestinationAddress := [5, 6, 7, 8],
              SourcePort := 1234, DestinationPort := 443 } :=
  (parseVersion2_layout
    (NewReader [0x0D, 0x0A, 0x0D, 0x0A, 0x00, 0x0D, 0x0A, 0x51, 0x55, 0x49, 0x54, 0x0A,
      0x21, 0x11, 0x00, 0x0C, 0x01, 0x02, 0x03, 0x04, 0x05, 0x06, 0x07, 0x08,
      0x04, 0xD2, 0x01, 0xBB]) ⟨0, 0, 0⟩ 0x11 0x00 0x0C (by rfl) (by rfl) (by rfl) (by rfl)
    (by decide) (by decide)).1 (Or.inl rfl) (by decide)

/-- C5 fails on the UNIX family: for the Header with command PROXY, transport UNIX-stream
and both addresses 127.0.0.1, whose text `net.IP.String` gives as the 9 bytes of
"127.0.0.1", `writeVersion2` declares a 218-byte block and writes 22 bytes after the length
field; `parseVersion2` rejects these bytes with `ErrInvalidLength`. -/
theorem unix_header_written_is_rejected :
    (writeVersion2 (fun _ => [49, 50, 55, 46, 48, 46, 48, 46, 49])
        { Version := 2, Command := PROXY, TransportProtocol := UnixStream,
          SourceAddress := [127, 0, 0, 1], DestinationAddress := [127, 0, 0, 1],
          SourcePort := 1234, DestinationPort := 443 } []).1
      = SIGV2 ++ [0x21, 0x31, 0x00, 0xDA, 49, 50, 55, 46, 48, 46, 48, 46, 49,
          49, 50, 55, 46, 48, 46, 48, 46, 49, 0x04, 0xD2, 0x01, 0xBB] ∧
    (parseVersion2
      (NewReader ((writeVersion2 (fun _ => [49, 50, 55, 46, 48, 46, 48, 46, 49])
        { Version := 2, Command := PROXY, TransportProtocol := UnixStream,
          SourceAddress := [127, 0, 0, 1], DestinationAddress := [127, 0, 0, 1],
          SourcePort := 1234, DestinationPort := 443 } []).1)) ⟨0, 0, 0⟩).result
      = .error .ErrInvalidLength :=
  ⟨rfl, rfl⟩

/-- C6: LOCAL encoding. For every Header whose command is LOCAL, whatever its other fields
hold, `writeVersion2` writes exactly the 12 signature bytes followed by 0x20 and reports 13
bytes written. -/
theorem writeVersion2_local (ipString : List Nat → List Nat) (h : Header) (w : List Nat)
    (hc : h.Command = LOCAL) :
    writeVersion2 ipString h w
      = (w ++ [0x0D, 0x0A, 0x0D, 0x0A, 0x00, 0x0D, 0x0A, 0x51, 0x55, 0x49, 0x54, 0x0A, 0x20],
          13) := by
  simp [writeVersion2, writeVersion2Buf_local ipString h hc, SIGV2, LOCAL]

/-- Witness of C6: a LOCAL header whose transport, address and port fields are set. -/
theorem writeVersion2_local_witness :
    writeVersion2 id
        { Version := 2, Command := LOCAL, TransportProtocol := TCPv4,
          SourceAddress := [1, 2, 3, 4], DestinationAddress := [5, 6, 7, 8],
          SourcePort := 1234, DestinationPort := 443 } []
      = ([] ++ [0x0D, 0x0A, 0x0D, 0x0A, 0x00, 0x0D, 0x0A, 0x51, 0x55, 0x49, 0x54, 0x0A, 0x20],
          13) :=
  writeVersion2_local id _ [] rfl

/-- C7: LOCAL decoding. On every input whose byte 12 is 0x20 (so of at least 13 bytes),
`parseVersion2` returns a header with version 2 and command LOCAL whose transport,
addresses and ports are zero or empty, and leaves the reader at offset 13, whatever bytes
follow. -/
theorem parseVersion2_local (reader : Reader) (st : State)
    (h12 : reader.unread[12]? = some 0x20) :
    (parseVersion2 reader st).result
      = .ok { Version := 2, Command := LOCAL, TransportProtocol := 0, SourceAddress := [],
              DestinationAddress := [], SourcePort := 0, DestinationPort := 0 } ∧
    (parseVersion2 reader st).reader = ⟨reader.unread.drop 13, reader.size, reader.hsize⟩ := by
  obtain ⟨input, size, hsize⟩ := reader
  dsimp only at *
  have hsig := take12_length input _ h12
  have hin := command_of_index input _ h12
  have hp := (parseVersion2_command size hsize (input.take 12) (input.drop 13) 0x20 st hsig).2
    (by decide) (by decide)
  rw [← hin] at hp
  rw [hp]
  exact ⟨rfl, rfl⟩

/-- Witness of C7: the 13 bytes of a LOCAL header followed by three more bytes. -/
theorem parseVersion2_local_witness :
    (parseVersion2 (NewReader (SIGV2 ++ [0x20, 71, 69, 84])) ⟨0, 0, 0⟩).result
      = .ok { Version := 2, Command := LOCAL, TransportProtocol := 0, SourceAddress := [],
              DestinationAddress := [], SourcePort := 0, DestinationPort := 0 } ∧
    (parseVersion2 (NewReader (SIGV2 ++ [0x20, 71, 69, 84])) ⟨0, 0, 0⟩).reader
      = NewReader [71, 69, 84] :=
  parseVersion2_local (NewReader (SIGV2 ++ [0x20, 71, 69, 84])) ⟨0, 0, 0⟩ (by rfl)

/-- C8: truncation. On every input whose byte 12 is PROXY, whose byte 13 is a supported
family byte, whose declared length L passes `validateLength` and which holds fewer than L
bytes after the length field, `parseVersion2` fails with the error of its lookahead
(`ErrInvalidLength`, the value the code returns for a truncated address block), returns no
header, and leaves the reader immediately after the length field, at offset 16. -/
theorem parseVersion2_truncated (reader : Reader) (st : State) (b13 hi lo : Nat)
    (h12 : reader.unread[12]? = some PROXY) (h13 : reader.unread[13]? = some b13)
    (h14 : reader.unread[14]? = some hi) (h15 : reader.unread[15]? = some lo)
    (hsup : supportedTransportProtocol b13 = true)
    (hv : validateLength
      { Version := 2, Command := PROXY, TransportProtocol := b13, SourceAddress := [],
        DestinationAddress := [], SourcePort := 0, DestinationPort := 0 }
      (BigEndianUint16 hi lo) = true)
    (hshort : reader.unread.length < 16 + BigEndianUint16 hi lo) :
    (parseVersion2 reader st).result = .error .ErrInvalidLength ∧
    (parseVersion2 reader st).reader = ⟨reader.unread.drop 16, reader.size, reader.hsize⟩ := by
  obtain ⟨input, size, hsize⟩ := reader
  dsimp only at *
  have hsig := take12_length input _ h12
  have hin := frame_of_index input _ b13 hi lo h12 h13 h14 h15
  have hfr := parseVersion2_frame size hsize (input.take 12) (input.drop 16) PROXY b13 hi lo st hsig
  rw [← hin] at hfr
  obtain ⟨k15, _⟩ := List.getElem?_eq_some_iff.mp h15
  have hp : (input.drop 16).length < BigEndianUint16 hi lo := by
    rw [List.length_drop]
    omega
  have hc : ¬ supportedCommand PROXY = false := by decide
  have hl : ¬ IsLocal PROXY = true := by decide
  rw [hfr, if_neg hc, if_neg hl, if_neg (by simp [hsup]), if_neg (by simp [hv]),
    if_pos (Or.inr hp)]
  exact ⟨rfl, rfl⟩

/-- Witness of C8, the example of the specification: signature, PROXY, INET6 (stream),
length 36, and only 10 further bytes. -/
theorem parseVersion2_truncated_witness :
    (parseVersion2 (NewReader (SIGV2 ++ [0x21, 0x21, 0, 36, 1, 2, 3, 4, 5, 6, 7, 8, 9, 10]))
      ⟨0, 0, 0⟩).result = .error .ErrInvalidLength ∧
    (parseVersion2 (NewReader (SIGV2 ++ [0x21, 0x21, 0, 36, 1, 2, 3, 4, 5, 6, 7, 8, 9, 10]))
      ⟨0, 0, 0⟩).reader = (NewReader [1, 2, 3, 4, 5, 6, 7, 8, 9, 10]) :=
  parseVersion2_truncated (NewReader (SIGV2 ++ [0x21, 0x21, 0, 36, 1, 2, 3, 4, 5, 6, 7, 8, 9, 10]))
      ⟨0, 0, 0⟩ 0x21 0 36 (by rfl) (by rfl) (by rfl) (by rfl) (by decide) (by decide) (by decide)

/-- C9: length boundary in the decoder. On every input whose byte 12 is PROXY and whose
byte 13 is a supported family byte, a declared length below the family minimum (12 for
IPv4, 36 for IPv6, 218 for UNIX), 11, 35 and 217 included, makes `parseVersion2` fail with
`ErrInvalidLength`, the value the code returns for a length too short for the family,
however many bytes follow; a declared length equal to the minimum, with that many bytes
present after the length field, is accepted. -/
theorem parseVersion2_length_boundary (reader : Reader) (st : State) (b13 hi lo : Nat)
    (h12 : reader.unread[12]? = some PROXY) (h13 : reader.unread[13]? = some b13)
    (h14 : reader.unread[14]? = some hi) (h15 : reader.unread[15]? = some lo)
    (hsup : supportedTransportProtocol b13 = true) :
    ((IsIPv4 b13 = true ∧ BigEndianUint16 hi lo < 12
        ∨ IsIPv6 b13 = true ∧ BigEndianUint16 hi lo < 36
        ∨ IsUnix b13 = true ∧ BigEndianUint16 hi lo < 218) →
      (parseVersion2 reader st).result = .error .ErrInvalidLength) ∧
    ((IsIPv4 b13 = true ∧ BigEndianUint16 hi lo = 12
        ∨ IsIPv6 b13 = true ∧ BigEndianUint16 hi lo = 36
        ∨ IsUnix b13 = true ∧ BigEndianUint16 hi lo = 218) →
      16 + BigEndianUint16 hi lo ≤ reader.unread.length →
      ∃ h : Header, (parseVersion2 reader st).result = .ok h ∧ h.Command = PROXY
        ∧ h.TransportProtocol = b13) := by
  obtain ⟨input, size, hsize⟩ := reader
  dsimp only at *
  have hsig := take12_length input _ h12
  have hin := frame_of_index input _ b13 hi lo h12 h13 h14 h15
  have hfr := parseVersion2_frame size hsize (input.take 12) (input.drop 16) PROXY b13 hi lo st hsig
  rw [← hin] at hfr
  have hc : ¬ supportedCommand PROXY = false := by decide
  have hl : ¬ IsLocal PROXY = true := by decide
  rw [if_neg hc, if_neg hl, if_neg (by simp [hsup])] at hfr
  constructor
  · intro hlow
    have hv : validateLength
        { Version := 2, Command := PROXY, TransportProtocol := b13, SourceAddress := [],
          DestinationAddress := [], SourcePort := 0, DestinationPort := 0 }
        (BigEndianUint16 hi lo) = false := by
      simp only [IsIPv4, IsIPv6, IsUnix, beq_iff_eq] at hlow
      simp only [validateLength, IsIPv4, IsIPv6, IsUnix, lengthV4, lengthV6, lengthUnix]
      rcases hlow with ⟨a, b⟩ | ⟨a, b⟩ | ⟨a, b⟩ <;> simp [a] <;> omega
    rw [hfr, if_pos hv]
  · intro heq hlen
    have hv : validateLength
        { Version := 2, Command := PROXY, TransportProtocol := b13, SourceAddress := [],
          DestinationAddress := [], SourcePort := 0, DestinationPort := 0 }
        (BigEndianUint16 hi lo) = true := by
      simp only [IsIPv4, IsIPv6, IsUnix, beq_iff_eq] at heq
      simp only [validateLength, IsIPv4, IsIPv6, IsUnix, lengthV4, lengthV6, lengthUnix]
      rcases heq with ⟨a, b⟩ | ⟨a, b⟩ | ⟨a, b⟩ <;> simp [a, b]
    have hcap : BigEndianUint16 hi lo ≤ 218 := by
      rcases heq with ⟨_, b⟩ | ⟨_, b⟩ | ⟨_, b⟩ <;> omega
    have hp : ¬ (size < BigEndianUint16 hi lo
        ∨ (input.drop 16).length < BigEndianUint16 hi lo) := by
      rw [List.length_drop]
      omega
    rw [hfr, if_neg (by simp [hv]), if_neg hp]
    split_ifs <;> exact ⟨_, rfl, rfl, rfl⟩

/-- Witness of C9: a TCP-over-IPv4 header followed by 12 bytes is rejected when it declares
11 bytes and accepted when it declares 12. -/
theorem parseVersion2_length_boundary_witness :
    (parseVersion2
      (NewReader (SIGV2 ++ [0x21, 0x11, 0, 11, 1, 2, 3, 4, 5, 6, 7, 8, 4, 210, 1, 187]))
      ⟨0, 0, 0⟩).result = .error .ErrInvalidLength ∧
    ∃ h : Header,
      (parseVersion2
        (NewReader (SIGV2 ++ [0x21, 0x11, 0, 12, 1, 2, 3, 4, 5, 6, 7, 8, 4, 210, 1, 187]))
        ⟨0, 0, 0⟩).result = .ok h ∧ h.Command = PROXY ∧ h.TransportProtocol = 0x11 :=
  ⟨(parseVersion2_length_boundary
      (NewReader (SIGV2 ++ [0x21, 0x11, 0, 11, 1, 2, 3, 4, 5, 6, 7, 8, 4, 210, 1, 187]))
      ⟨0, 0, 0⟩ 0x11 0 11 (by rfl) (by rfl) (by rfl) (by rfl) (by decide)).1 (Or.inl ⟨by decide, by
          decide⟩),
    (parseVersion2_length_boundary
      (NewReader (SIGV2 ++ [0x21, 0x11, 0, 12, 1, 2, 3, 4, 5, 6, 7, 8, 4, 210, 1, 187]))
      ⟨0, 0, 0⟩ 0x11 0 12 (by rfl) (by rfl) (by rfl) (by rfl) (by decide)).2 (Or.inl ⟨by decide, by
          decide⟩)
      (by decide)⟩

/-- C10: the table of `validateLength`. For every header and every length n it returns
true exactly when the transport is of the IPv4 family and n is at least 12, or of the IPv6
family and n at least 36, or of the UNIX family and n at least 218; for a transport of any
other family, UNSPEC included, it returns false for every n. -/
theorem validateLength_table (header : Header) (n : Nat) :
    (validateLength header n = true ↔
      (IsIPv4 header.TransportProtocol = true ∧ 12 ≤ n)
      ∨ (IsIPv6 header.TransportProtocol = true ∧ 36 ≤ n)
      ∨ (IsUnix header.TransportProtocol = true ∧ 218 ≤ n)) ∧
    (IsIPv4 header.TransportProtocol = false → IsIPv6 header.TransportProtocol = false →
      IsUnix header.TransportProtocol = false → validateLength header n = false) ∧
    (header.TransportProtocol = UNSPEC → validateLength header n = false) := by
  refine ⟨?_, ?_, ?_⟩
  · simp only [validateLength, IsIPv4, IsIPv6, IsUnix, lengthV4, lengthV6, lengthUnix,
      beq_iff_eq]
    split_ifs with h4 h6 hu
    · simp [h4]
    · simp [h4, h6]
    · simp [h4, h6, hu]
    · simp [h4, h6, hu]
  · intro h4 h6 hu
    simp [validateLength, h4, h6, hu]
  · intro hu
    simp [validateLength, hu, UNSPEC, IsIPv4, IsIPv6, IsUnix]

/-- Witness of C10: the UNSPEC transport with the largest 16-bit length. -/
theorem validateLength_table_witness :
    validateLength
      { Version := 2, Command := PROXY, TransportProtocol := UNSPEC, SourceAddress := [],
        DestinationAddress := [], SourcePort := 0, DestinationPort := 0 } 65535 = false :=
  (validateLength_table
    { Version := 2, Command := PROXY, TransportProtocol := UNSPEC, SourceAddress := [],
      DestinationAddress := [], SourcePort := 0, DestinationPort := 0 } 65535).2.1
    (by decide) (by decide) (by decide)

/-- C11: validator monotonicity. For every header (so for every fixed transport) and every
pair of lengths L0 < L1, if `validateLength` accepts L0 then it accepts L1. -/
theorem validateLength_mono (header : Header) (L0 L1 : Nat) (hlt : L0 < L1)
    (h0 : validateLength header L0 = true) : validateLength header L1 = true := by
  simp only [validateLength, lengthV4, lengthV6, lengthUnix] at h0 ⊢
  split_ifs at h0 ⊢ with h4 h6 hu
  · simp only [decide_eq_true_eq] at h0 ⊢
    omega
  · simp only [decide_eq_true_eq] at h0 ⊢
    omega
  · simp only [decide_eq_true_eq] at h0 ⊢
    omega

/-- Witness of C11: for UDP-over-IPv6 the length 36 is accepted, hence so is 65535. -/
theorem validateLength_mono_witness :
    validateLength
      { Version := 2, Command := PROXY, TransportProtocol := UDPv6, SourceAddress := [],
        DestinationAddress := [], SourcePort := 0, DestinationPort := 0 } 65535 = true :=
  validateLength_mono
    { Version := 2, Command := PROXY, TransportProtocol := UDPv6, SourceAddress := [],
      DestinationAddress := [], SourcePort := 0, DestinationPort := 0 } 36 65535
    (by decide) (by decide)

/-- An input with bytes at offsets 12 and 13 splits into a 12-byte signature, those two
bytes and the bytes from offset 14 on. -/
theorem family_of_index (input : List Nat) (a b : Nat)
    (h12 : input[12]? = some a) (h13 : input[13]? = some b) :
    input = input.take 12 ++ a :: b :: input.drop 14 := by
  obtain ⟨k12, e12⟩ := List.getElem?_eq_some_iff.mp h12
  obtain ⟨k13, e13⟩ := List.getElem?_eq_some_iff.mp h13
  conv_lhs => rw [← List.take_append_drop 12 input]
  rw [List.drop_eq_getElem_cons k12, List.drop_eq_getElem_cons k13, e12, e13]

/-- C12: unsupported command. On every input whose byte 12 (so the input has at least 13
bytes) is not a supported version/command value, `parseVersion2` fails with
`ErrUnsupportedProtocolVersionAndCommand`, returns no header and leaves the reader at
offset 13: no byte after the command byte is read. Every byte other than 0x20 and 0x21 is
unsupported, 0x23 and every byte whose high nibble is not 2 included. -/
theorem parseVersion2_unsupported_command (reader : Reader) (st : State) (b12 : Nat)
    (h12 : reader.unread[12]? = some b12) :
    (supportedCommand b12 = false →
      (parseVersion2 reader st).result = .error .ErrUnsupportedProtocolVersionAndCommand ∧
      (parseVersion2 reader st).reader = ⟨reader.unread.drop 13, reader.size, reader.hsize⟩) ∧
    (b12 ≠ 0x20 → b12 ≠ 0x21 → supportedCommand b12 = false) ∧
    (b12 / 16 % 16 ≠ 2 → supportedCommand b12 = false) := by
  obtain ⟨input, size, hsize⟩ := reader
  dsimp only at *
  have hsig := take12_length input _ h12
  have hin := command_of_index input _ h12
  refine ⟨?_, ?_, ?_⟩
  · intro hc
    have hp := (parseVersion2_command size hsize (input.take 12) (input.drop 13) b12 st hsig).1 hc
    rw [← hin] at hp
    rw [hp]
    exact ⟨rfl, rfl⟩
  · intro h0 h1
    simp [supportedCommand, LOCAL, PROXY, h0, h1]
  · intro hn
    have h0 : b12 ≠ 32 := by omega
    have h1 : b12 ≠ 33 := by omega
    simp [supportedCommand, LOCAL, PROXY, h0, h1]

/-- Witness of C12: command byte 0x23 (version 2, command nibble 3) followed by a complete
IPv4 address section, none of which is read. -/
theorem parseVersion2_unsupported_command_witness :
    (parseVersion2
      (NewReader (SIGV2 ++ [0x23, 0x11, 0, 12, 1, 2, 3, 4, 5, 6, 7, 8, 4, 210, 1, 187]))
      ⟨0, 0, 0⟩).result = .error .ErrUnsupportedProtocolVersionAndCommand ∧
    (parseVersion2
      (NewReader (SIGV2 ++ [0x23, 0x11, 0, 12, 1, 2, 3, 4, 5, 6, 7, 8, 4, 210, 1, 187]))
      ⟨0, 0, 0⟩).reader = (NewReader [0x11, 0, 12, 1, 2, 3, 4, 5, 6, 7, 8, 4, 210, 1, 187]) :=
  (parseVersion2_unsupported_command
    (NewReader (SIGV2 ++ [0x23, 0x11, 0, 12, 1, 2, 3, 4, 5, 6, 7, 8, 4, 210, 1, 187]))
    ⟨0, 0, 0⟩ 0x23 (by rfl)).1 (by decide)

/-- C13: unsupported family. On every input whose byte 12 is the PROXY command 0x21 and
whose byte 13 (so the input has at least 14 bytes) is not a supported family/protocol
combination, `parseVersion2` fails with `ErrUnsupportedAddressFamilyAndProtocol`, returns
no header and leaves the reader at offset 14: the length field is not read. Every byte
whose family nibble is not 1, 2 or 3 is unsupported, family nibble 0xF included. -/
theorem parseVersion2_unsupported_family (reader : Reader) (st : State) (b13 : Nat)
    (h12 : reader.unread[12]? = some 0x21) (h13 : reader.unread[13]? = some b13) :
    (supportedTransportProtocol b13 = false →
      (parseVersion2 reader st).result = .error .ErrUnsupportedAddressFamilyAndProtocol ∧
      (parseVersion2 reader st).reader = ⟨reader.unread.drop 14, reader.size, reader.hsize⟩) ∧
    (b13 / 16 % 16 ≠ 1 → b13 / 16 % 16 ≠ 2 → b13 / 16 % 16 ≠ 3 →
      supportedTransportProtocol b13 = false) := by
  obtain ⟨input, size, hsize⟩ := reader
  dsimp only at *
  have hsig := take12_length input _ h12
  have hin := family_of_index input _ b13 h12 h13
  refine ⟨?_, ?_⟩
  · intro ht
    have hp := (parseVersion2_cut size hsize (input.take 12) 0x21 st hsig (by decide) (by
        decide)).2.1
      b13 ht (input.drop 14)
    rw [← hin] at hp
    rw [hp]
    exact ⟨rfl, rfl⟩
  · intro n1 n2 n3
    have e1 : b13 ≠ 17 := by omega
    have e2 : b13 ≠ 18 := by omega
    have e3 : b13 ≠ 33 := by omega
    have e4 : b13 ≠ 34 := by omega
    have e5 : b13 ≠ 49 := by omega
    have e6 : b13 ≠ 50 := by omega
    simp [supportedTransportProtocol, TCPv4, UDPv4, TCPv6, UDPv6, UnixStream, UnixDatagram,
      e1, e2, e3, e4, e5, e6]

/-- Witness of C13: family byte 0xF1 (family nibble 0xF) followed by a length field and an
address block, none of which is read. -/
theorem parseVersion2_unsupported_family_witness :
    (parseVersion2
      (NewReader (SIGV2 ++ [0x21, 0xF1, 0, 12, 1, 2, 3, 4, 5, 6, 7, 8, 4, 210, 1, 187]))
      ⟨0, 0, 0⟩).result = .error .ErrUnsupportedAddressFamilyAndProtocol ∧
    (parseVersion2
      (NewReader (SIGV2 ++ [0x21, 0xF1, 0, 12, 1, 2, 3, 4, 5, 6, 7, 8, 4, 210, 1, 187]))
      ⟨0, 0, 0⟩).reader = (NewReader [0, 12, 1, 2, 3, 4, 5, 6, 7, 8, 4, 210, 1, 187]) :=
  (parseVersion2_unsupported_family
    (NewReader (SIGV2 ++ [0x21, 0xF1, 0, 12, 1, 2, 3, 4, 5, 6, 7, 8, 4, 210, 1, 187]))
    ⟨0, 0, 0⟩ 0xF1 (by rfl) (by rfl)).1 (by decide)

/-- C14: encoder layout for PROXY. For every Header with command PROXY, an IPv4 (resp.
IPv6) transport and addresses valid for that family (`To4`, resp. `To16`, gives 4, resp.
16, bytes), `writeVersion2` writes exactly the signature, 0x21, the transport byte, the
big-endian length 0x000C (resp. 0x0024), the source address, the destination address, the
big-endian source port and the big-endian destination port: 28 (resp. 52) bytes, of which
12 (resp. 36), the declared length, come after the length field. The address written is
the header's address itself whenever that is 4 (resp. 16) bytes long. -/
theorem writeVersion2_layout (ipString : List Nat → List Nat) (h : Header) (w : List Nat)
    (hc : h.Command = PROXY) :
    ((h.TransportProtocol = TCPv4 ∨ h.TransportProtocol = UDPv4) →
      (To4 h.SourceAddress).length = 4 → (To4 h.DestinationAddress).length = 4 →
      writeVersion2 ipString h w
        = (w ++ (SIGV2 ++ [0x21] ++ [h.TransportProtocol] ++ [0x00, 0x0C]
            ++ To4 h.SourceAddress ++ To4 h.DestinationAddress
            ++ [h.SourcePort / 256 % 256, h.SourcePort % 256]
            ++ [h.DestinationPort / 256 % 256, h.DestinationPort % 256]), 28) ∧
      (To4 h.SourceAddress ++ To4 h.DestinationAddress
            ++ [h.SourcePort / 256 % 256, h.SourcePort % 256]
            ++ [h.DestinationPort / 256 % 256, h.DestinationPort % 256]).length
        = BigEndianUint16 0x00 0x0C ∧
      (h.SourceAddress.length = 4 → To4 h.SourceAddress = h.SourceAddress) ∧
      (h.DestinationAddress.length = 4 → To4 h.DestinationAddress = h.DestinationAddress)) ∧
    ((h.TransportProtocol = TCPv6 ∨ h.TransportProtocol = UDPv6) →
      (To16 h.SourceAddress).length = 16 → (To16 h.DestinationAddress).length = 16 →
      writeVersion2 ipString h w
        = (w ++ (SIGV2 ++ [0x21] ++ [h.TransportProtocol] ++ [0x00, 0x24]
            ++ To16 h.SourceAddress ++ To16 h.DestinationAddress
            ++ [h.SourcePort / 256 % 256, h.SourcePort % 256]
            ++ [h.DestinationPort / 256 % 256, h.DestinationPort % 256]), 52) ∧
      (To16 h.SourceAddress ++ To16 h.DestinationAddress
            ++ [h.SourcePort / 256 % 256, h.SourcePort % 256]
            ++ [h.DestinationPort / 256 % 256, h.DestinationPort % 256]).length
        = BigEndianUint16 0x00 0x24 ∧
      (h.SourceAddress.length = 16 → To16 h.SourceAddress = h.SourceAddress) ∧
      (h.DestinationAddress.length = 16 →
        To16 h.DestinationAddress = h.DestinationAddress)) := by
  constructor
  · intro ht hs hd
    refine ⟨?_, ?_, ?_, ?_⟩
    · simp only [writeVersion2, writeVersion2Buf_ipv4 ipString h hc ht]
      simp [SIGV2, PROXY, PutUint16, hs, hd]
    · simp [hs, hd, BigEndianUint16]
    · intro h4
      simp [To4, h4]
    · intro h4
      simp [To4, h4]
  · intro ht hs hd
    refine ⟨?_, ?_, ?_, ?_⟩
    · simp only [writeVersion2, writeVersion2Buf_ipv6 ipString h hc ht]
      simp [SIGV2, PROXY, PutUint16, hs, hd]
    · simp [hs, hd, BigEndianUint16]
    · intro h16
      simp [To16, h16]
    · intro h16
      simp [To16, h16]

/-- Witness of C14: the header PROXY, TCP-over-IPv4, 1.2.3.4:1234 to 5.6.7.8:443 is written
as the 28 bytes of the specification's example. -/
theorem writeVersion2_layout_witness :
    writeVersion2 id
        { Version := 2, Command := PROXY, TransportProtocol := TCPv4,
          SourceAddress := [1, 2, 3, 4], DestinationAddress := [5, 6, 7, 8],
          SourcePort := 1234, DestinationPort := 443 } []
      = ([0x0D, 0x0A, 0x0D, 0x0A, 0x00, 0x0D, 0x0A, 0x51, 0x55, 0x49, 0x54, 0x0A,
          0x21, 0x11, 0x00, 0x0C, 0x01, 0x02, 0x03, 0x04, 0x05, 0x06, 0x07, 0x08,
          0x04, 0xD2, 0x01, 0xBB], 28) :=
  ((writeVersion2_layout id
      { Version := 2, Command := PROXY, TransportProtocol := TCPv4,
        SourceAddress := [1, 2, 3, 4], DestinationAddress := [5, 6, 7, 8],
        SourcePort := 1234, DestinationPort := 443 } [] rfl).1 (Or.inl rfl) (by decide)
      (by decide)).1

/-- C15, as stated, fails: a UNIX-stream header that declares L = 4097 bytes (at least
218) and is followed by 4097 bytes, read through a reader with the default buffer of 4096
bytes, is rejected: the lookahead of 4097 bytes does not fit the buffer and
`parseVersion2` returns `ErrInvalidLength`. -/
theorem unix_rejected_beyond_buffer :
    16 + BigEndianUint16 0x10 0x01
      ≤ (SIGV2 ++ 0x21 :: 0x31 :: 0x10 :: 0x01 :: List.replicate 4097 0).length ∧
    218 ≤ BigEndianUint16 0x10 0x01 ∧
    (parseVersion2 (NewReader (SIGV2 ++ 0x21 :: 0x31 :: 0x10 :: 0x01 :: List.replicate 4097 0))
      ⟨0, 0, 0⟩).result = .error .ErrInvalidLength :=
  ⟨by
      rw [List.length_append, List.length_cons, List.length_cons, List.length_cons,
        List.length_cons, List.length_replicate]
      decide,
    by decide,
    congrArg Outcome.result
      (parseVersion2_over_capacity 4096 (by decide) SIGV2 (List.replicate 4097 0) 0x31 0x10 0x01
        ⟨0, 0, 0⟩ rfl (by decide) (by decide) (by decide))⟩

/-- C15, amended: UNIX family decoding. On every input whose byte 12 is PROXY, whose byte
13 is UNIX-stream or UNIX-datagram, whose declared length L is at least 218 and at most
the size of the reader's buffer and which supplies at least L further bytes,
`parseVersion2` succeeds and returns a header with command PROXY and that transport whose
addresses are empty and whose ports are zero, and leaves the reader at offset 16 + L: all
L bytes of the region are skipped. -/
theorem parseVersion2_unix (reader : Reader) (st : State) (b13 hi lo : Nat)
    (h12 : reader.unread[12]? = some PROXY) (h13 : reader.unread[13]? = some b13)
    (h14 : reader.unread[14]? = some hi) (h15 : reader.unread[15]? = some lo)
    (ht : b13 = UnixStream ∨ b13 = UnixDatagram)
    (hmin : 218 ≤ BigEndianUint16 hi lo)
    (hlen : 16 + BigEndianUint16 hi lo ≤ reader.unread.length)
    (hcap : BigEndianUint16 hi lo ≤ reader.size) :
    (parseVersion2 reader st).result
      = .ok { Version := 2, Command := PROXY, TransportProtocol := b13, SourceAddress := [],
              DestinationAddress := [], SourcePort := 0, DestinationPort := 0 } ∧
    (parseVersion2 reader st).reader
      = ⟨reader.unread.drop (16 + BigEndianUint16 hi lo), reader.size, reader.hsize⟩ := by
  obtain ⟨input, size, hsize⟩ := reader
  dsimp only at *
  have hsig := take12_length input _ h12
  have hin := frame_of_index input _ b13 hi lo h12 h13 h14 h15
  have hfr := parseVersion2_frame size hsize (input.take 12) (input.drop 16) PROXY b13 hi lo
    st hsig
  rw [← hin] at hfr
  obtain ⟨hsup, h4, h6, hu⟩ := supported_of_unix _ ht
  have hp : ¬ (size < BigEndianUint16 hi lo
      ∨ (input.drop 16).length < BigEndianUint16 hi lo) := by
    rw [List.length_drop]
    omega
  have hc : ¬ supportedCommand PROXY = false := by decide
  have hl : ¬ IsLocal PROXY = true := by decide
  have hv : validateLength
      { Version := 2, Command := PROXY, TransportProtocol := b13, SourceAddress := [],
        DestinationAddress := [], SourcePort := 0, DestinationPort := 0 }
      (BigEndianUint16 hi lo) = true := by
    simp [validateLength, h4, h6, hu, lengthUnix, hmin]
  rw [hfr, if_neg hc, if_neg hl, if_neg (by simp [hsup]), if_neg (by simp [hv]), if_neg hp,
    if_neg (by simp [h4]), if_neg (by simp [h6])]
  refine ⟨rfl, ?_⟩
  simp [List.drop_drop, Nat.add_comm]

set_option maxRecDepth 20000 in
/-- Witness of C15: a UNIX-stream header that declares 218 bytes, followed by 218 zero
bytes and one byte of application data, which is left unread, read through a reader with
the default buffer of 4096 bytes. -/
theorem parseVersion2_unix_witness :
    (parseVersion2
      (NewReader (SIGV2 ++ 0x21 :: 0x31 :: 0 :: 218 :: (List.replicate 218 0 ++ [71])))
      ⟨0, 0, 0⟩).result
      = .ok { Version := 2, Command := PROXY, TransportProtocol := 0x31, SourceAddress := [],
              DestinationAddress := [], SourcePort := 0, DestinationPort := 0 } ∧
    (parseVersion2
      (NewReader (SIGV2 ++ 0x21 :: 0x31 :: 0 :: 218 :: (List.replicate 218 0 ++ [71])))
      ⟨0, 0, 0⟩).reader
      = NewReader ((SIGV2 ++ 0x21 :: 0x31 :: 0 :: 218 :: (List.replicate 218 0 ++ [71])).drop
          (16 + BigEndianUint16 0 218)) :=
  parseVersion2_unix
    (NewReader (SIGV2 ++ 0x21 :: 0x31 :: 0 :: 218 :: (List.replicate 218 0 ++ [71])))
    ⟨0, 0, 0⟩ 0x31 0 218 (by rfl) (by rfl) (by rfl) (by rfl) (Or.inl rfl) (by decide)
    (by decide) (by decide)

/-- Every call of `parseVersion2` ends in one of its nine kinds of return: the returned
pair together with the counters it leaves. -/
theorem parseVersion2_cases (reader : Reader) (st : State) :
    ((parseVersion2 reader st).result = .error .ErrCantReadProtocolVersionAndCommand ∧
      (parseVersion2 reader st).state = st.IncErrReadHeader) ∨
    ((parseVersion2 reader st).result = .error .ErrUnsupportedProtocolVersionAndCommand ∧
      (parseVersion2 reader st).state = st.IncErrInvalidHeader) ∨
    ((∃ h : Header, (parseVersion2 reader st).result = .ok h ∧ IsLocal h.Command = true) ∧
      (parseVersion2 reader st).state = st) ∨
    ((parseVersion2 reader st).result = .error .ErrCantReadAddressFamilyAndProtocol ∧
      (parseVersion2 reader st).state = st.IncErrReadHeader) ∨
    ((parseVersion2 reader st).result = .error .ErrUnsupportedAddressFamilyAndProtocol ∧
      (parseVersion2 reader st).state = st.IncErrInvalidHeader) ∨
    ((parseVersion2 reader st).result = .error .ErrCantReadLength ∧
      (parseVersion2 reader st).state = st.IncErrReadHeader) ∨
    ((parseVersion2 reader st).result = .error .ErrInvalidLength ∧
      (parseVersion2 reader st).state = st.IncErrInvalidHeader) ∨
    ((parseVersion2 reader st).result = .error .ErrInvalidLength ∧
      (parseVersion2 reader st).state = st.IncErrReadHeader) ∨
    ((∃ h : Header, (parseVersion2 reader st).result = .ok h ∧ IsLocal h.Command = false) ∧
      (parseVersion2 reader st).state = st.IncNormalV2Header) := by
  obtain ⟨input, size, hsize⟩ := reader
  by_cases hlen : input.length < 12
  · rw [parseVersion2_short size hsize input st hlen]
    exact Or.inl ⟨rfl, rfl⟩
  obtain ⟨sig, rest, rfl, hsig⟩ : ∃ sig rest, input = sig ++ rest ∧ sig.length = 12 :=
    ⟨input.take 12, input.drop 12, (List.take_append_drop 12 input).symm, by
      simp [List.length_take]; omega⟩
  match rest with
  | [] =>
    rw [List.append_nil, parseVersion2_sig size hsize sig st hsig]
    exact Or.inl ⟨rfl, rfl⟩
  | b12 :: r1 =>
    by_cases hc : supportedCommand b12 = false
    · rw [(parseVersion2_command size hsize sig r1 b12 st hsig).1 hc]
      exact Or.inr (Or.inl ⟨rfl, rfl⟩)
    have hc1 : supportedCommand b12 = true := by simpa using hc
    by_cases hl : IsLocal b12 = true
    · rw [(parseVersion2_command size hsize sig r1 b12 st hsig).2 hc1 hl]
      exact Or.inr (Or.inr (Or.inl ⟨⟨_, rfl, hl⟩, rfl⟩))
    have hl1 : IsLocal b12 = false := by simpa using hl
    obtain ⟨k1, k2, k3, k4⟩ := parseVersion2_cut size hsize sig b12 st hsig hc1 hl1
    match r1 with
    | [] =>
      rw [k1]
      exact Or.inr (Or.inr (Or.inr (Or.inl ⟨rfl, rfl⟩)))
    | b13 :: r2 =>
      by_cases ht : supportedTransportProtocol b13 = false
      · rw [k2 b13 ht r2]
        exact Or.inr (Or.inr (Or.inr (Or.inr (Or.inl ⟨rfl, rfl⟩))))
      have ht1 : supportedTransportProtocol b13 = true := by simpa using ht
      match r2 with
      | [] =>
        rw [k3 b13 ht1]
        exact Or.inr (Or.inr (Or.inr (Or.inr (Or.inr (Or.inl ⟨rfl, rfl⟩)))))
      | [hi] =>
        rw [k4 b13 hi ht1]
        exact Or.inr (Or.inr (Or.inr (Or.inr (Or.inr (Or.inl ⟨rfl, rfl⟩)))))
      | hi :: lo :: tl =>
        rw [parseVersion2_frame size hsize sig tl b12 b13 hi lo st hsig, if_neg hc, if_neg hl,
            if_neg ht]
        by_cases hv : validateLength
            { Version := 2, Command := b12, TransportProtocol := b13, SourceAddress := [],
              DestinationAddress := [], SourcePort := 0, DestinationPort := 0 }
            (BigEndianUint16 hi lo) = false
        · rw [if_pos hv]
          exact Or.inr (Or.inr (Or.inr (Or.inr (Or.inr (Or.inr (Or.inl ⟨rfl, rfl⟩))))))
        rw [if_neg hv]
        by_cases hp : size < BigEndianUint16 hi lo ∨ tl.length < BigEndianUint16 hi lo
        · rw [if_pos hp]
          exact Or.inr (Or.inr (Or.inr (Or.inr (Or.inr (Or.inr (Or.inr
            (Or.inl ⟨rfl, rfl⟩)))))))
        rw [if_neg hp]
        refine Or.inr (Or.inr (Or.inr (Or.inr (Or.inr (Or.inr (Or.inr (Or.inr ?_)))))))
        split_ifs
        · exact ⟨⟨_, rfl, hl1⟩, rfl⟩
        · exact ⟨⟨_, rfl, hl1⟩, rfl⟩
        · exact ⟨⟨_, rfl, hl1⟩, rfl⟩

/-- The three counter increments and no increment are pairwise different. -/
theorem state_inc_ne (st : State) :
    st.IncErrReadHeader ≠ st.IncErrInvalidHeader ∧
    st.IncErrReadHeader ≠ st.IncNormalV2Header ∧
    st.IncErrInvalidHeader ≠ st.IncNormalV2Header ∧
    st.IncErrReadHeader ≠ st ∧ st.IncErrInvalidHeader ≠ st ∧ st.IncNormalV2Header ≠ st := by
  obtain ⟨a, b, c⟩ := st
  simp [State.IncErrReadHeader, State.IncErrInvalidHeader, State.IncNormalV2Header]

/-- C16, as stated, fails: a TCP-over-IPv4 header that declares 11 bytes (below the
minimum) and a TCP-over-IPv4 header that declares 12 bytes and is followed by 4 get the same
error value from `parseVersion2`. -/
theorem length_errors_coincide :
    (parseVersion2
      (NewReader (SIGV2 ++ [0x21, 0x11, 0, 11, 1, 2, 3, 4, 5, 6, 7, 8, 4, 210, 1, 187]))
      ⟨0, 0, 0⟩).result
    = (parseVersion2 (NewReader (SIGV2 ++ [0x21, 0x11, 0, 12, 1, 2, 3, 4])) ⟨0, 0, 0⟩).result := by
  rfl

/-- C16, amended: one error value, two counters. For a PROXY input with a supported family
byte whose declared length fails `validateLength`, and for a PROXY input with a supported
family byte whose declared length passes `validateLength` but is followed by fewer bytes
than declared, `parseVersion2` returns the same error value, `ErrInvalidLength`; the two
failures differ in the counter they increment, invalid-header for the first and
read-header-error for the second. -/
theorem length_errors_same_value (short cut : Reader) (st : State)
    (b13 hi lo c13 chi clo : Nat)
    (s12 : short.unread[12]? = some PROXY) (s13 : short.unread[13]? = some b13)
    (s14 : short.unread[14]? = some hi) (s15 : short.unread[15]? = some lo)
    (ssup : supportedTransportProtocol b13 = true)
    (sv : validateLength
      { Version := 2, Command := PROXY, TransportProtocol := b13, SourceAddress := [],
        DestinationAddress := [], SourcePort := 0, DestinationPort := 0 }
      (BigEndianUint16 hi lo) = false)
    (c12 : cut.unread[12]? = some PROXY) (c13' : cut.unread[13]? = some c13)
    (c14 : cut.unread[14]? = some chi) (c15 : cut.unread[15]? = some clo)
    (csup : supportedTransportProtocol c13 = true)
    (cv : validateLength
      { Version := 2, Command := PROXY, TransportProtocol := c13, SourceAddress := [],
        DestinationAddress := [], SourcePort := 0, DestinationPort := 0 }
      (BigEndianUint16 chi clo) = true)
    (cshort : cut.unread.length < 16 + BigEndianUint16 chi clo) :
    (parseVersion2 short st).result = .error .ErrInvalidLength ∧
    (parseVersion2 cut st).result = .error .ErrInvalidLength ∧
    (parseVersion2 short st).state = st.IncErrInvalidHeader ∧
    (parseVersion2 cut st).state = st.IncErrReadHeader ∧
    (parseVersion2 short st).state ≠ (parseVersion2 cut st).state := by
  obtain ⟨short, ssize, hssize⟩ := short
  obtain ⟨cut, csize, hcsize⟩ := cut
  dsimp only at *
  have hc : ¬ supportedCommand PROXY = false := by decide
  have hl : ¬ IsLocal PROXY = true := by decide
  have e1 : parseVersion2 ⟨short, ssize, hssize⟩ st
      = ⟨.error .ErrInvalidLength, ⟨short.drop 16, ssize, hssize⟩,
          st.IncErrInvalidHeader⟩ := by
    have hsig := take12_length short _ s12
    have hin := frame_of_index short _ b13 hi lo s12 s13 s14 s15
    have hfr := parseVersion2_frame ssize hssize (short.take 12) (short.drop 16) PROXY b13 hi
      lo st hsig
    rw [← hin] at hfr
    rw [hfr, if_neg hc, if_neg hl, if_neg (by simp [ssup]), if_pos sv]
  have e2 : parseVersion2 ⟨cut, csize, hcsize⟩ st
      = ⟨.error .ErrInvalidLength, ⟨cut.drop 16, csize, hcsize⟩, st.IncErrReadHeader⟩ := by
    have hsig := take12_length cut _ c12
    have hin := frame_of_index cut _ c13 chi clo c12 c13' c14 c15
    have hfr := parseVersion2_frame csize hcsize (cut.take 12) (cut.drop 16) PROXY c13 chi clo
      st hsig
    rw [← hin] at hfr
    obtain ⟨k15, _⟩ := List.getElem?_eq_some_iff.mp c15
    have hp : (cut.drop 16).length < BigEndianUint16 chi clo := by
      rw [List.length_drop]
      omega
    rw [hfr, if_neg hc, if_neg hl, if_neg (by simp [csup]), if_neg (by simp [cv]),
      if_pos (Or.inr hp)]
  rw [e1, e2]
  exact ⟨rfl, rfl, rfl, rfl, fun h => (state_inc_ne st).1 h.symm⟩

/-- Witness of C16: the two inputs of the counterexample. -/
theorem length_errors_same_value_witness :
    (parseVersion2
      (NewReader (SIGV2 ++ [0x21, 0x11, 0, 11, 1, 2, 3, 4, 5, 6, 7, 8, 4, 210, 1, 187]))
      ⟨0, 0, 0⟩).result = .error .ErrInvalidLength ∧
    (parseVersion2 (NewReader (SIGV2 ++ [0x21, 0x11, 0, 12, 1, 2, 3, 4])) ⟨0, 0, 0⟩).result
      = .error .ErrInvalidLength ∧
    (parseVersion2
      (NewReader (SIGV2 ++ [0x21, 0x11, 0, 11, 1, 2, 3, 4, 5, 6, 7, 8, 4, 210, 1, 187]))
      ⟨0, 0, 0⟩).state = ⟨0, 1, 0⟩ ∧
    (parseVersion2 (NewReader (SIGV2 ++ [0x21, 0x11, 0, 12, 1, 2, 3, 4])) ⟨0, 0, 0⟩).state
      = ⟨1, 0, 0⟩ ∧
    (parseVersion2
      (NewReader (SIGV2 ++ [0x21, 0x11, 0, 11, 1, 2, 3, 4, 5, 6, 7, 8, 4, 210, 1, 187]))
      ⟨0, 0, 0⟩).state
      ≠ (parseVersion2 (NewReader (SIGV2 ++ [0x21, 0x11, 0, 12, 1, 2, 3, 4])) ⟨0, 0, 0⟩).state :=
  length_errors_same_value
    (NewReader (SIGV2 ++ [0x21, 0x11, 0, 11, 1, 2, 3, 4, 5, 6, 7, 8, 4, 210, 1, 187]))
    (NewReader (SIGV2 ++ [0x21, 0x11, 0, 12, 1, 2, 3, 4])) ⟨0, 0, 0⟩ 0x11 0 11 0x11 0 12
    (by rfl) (by rfl) (by rfl) (by rfl) (by decide) (by decide) (by rfl) (by rfl) (by rfl)
    (by rfl) (by decide) (by decide) (by decide)

/-- C17 fails on LOCAL: `parseVersion2` on the 13 bytes of a LOCAL header returns the
header and leaves all three counters as they were, the normal-v2-header counter
included. -/
theorem local_header_counts_nothing :
    (parseVersion2 (NewReader (SIGV2 ++ [0x20])) ⟨0, 0, 0⟩).result
      = .ok { Version := 2, Command := LOCAL, TransportProtocol := 0, SourceAddress := [],
              DestinationAddress := [], SourcePort := 0, DestinationPort := 0 } ∧
    (parseVersion2 (NewReader (SIGV2 ++ [0x20])) ⟨0, 0, 0⟩).state = ⟨0, 0, 0⟩ :=
  ⟨rfl, rfl⟩

/-- C18: the malformed-address error is unreachable. On every input `parseVersion2`
returns something other than `ErrInvalidAddress`: once `validateLength` and the lookahead
have passed, the 12 or 36 bytes of the fixed layout are there to be read. -/
theorem parseVersion2_never_invalid_address (reader : Reader) (st : State) :
    (parseVersion2 reader st).result ≠ .error .ErrInvalidAddress := by
  intro hbad
  rcases parseVersion2_cases reader st with h | h | h | h | h | h | h | h | h
  · rw [h.1] at hbad; cases hbad
  · rw [h.1] at hbad; cases hbad
  · obtain ⟨⟨x, hx, _⟩, _⟩ := h
    rw [hx] at hbad; cases hbad
  · rw [h.1] at hbad; cases hbad
  · rw [h.1] at hbad; cases hbad
  · rw [h.1] at hbad; cases hbad
  · rw [h.1] at hbad; cases hbad
  · rw [h.1] at hbad; cases hbad
  · obtain ⟨⟨x, hx, _⟩, _⟩ := h
    rw [hx] at hbad; cases hbad

/-- The 12 bytes that `parseVersion2` skips do not enter its result. -/
theorem parseVersion2_signature_irrelevant (size : Nat) (hsize : 218 ≤ size)
    (sig sig' rest : List Nat) (st : State)
    (hsig : sig.length = 12) (hsig' : sig'.length = 12) :
    parseVersion2 ⟨sig ++ rest, size, hsize⟩ st
      = parseVersion2 ⟨sig' ++ rest, size, hsize⟩ st := by
  have hs := skipSignature_append size hsize sig rest
  have hs' := skipSignature_append size hsize sig' rest
  rw [hsig] at hs
  rw [hsig'] at hs'
  simp only [parseVersion2, hs, hs']

/-- C19: the signature's content is not validated. For any two inputs of equal length that
agree from offset 12 on, read through the same reader, `parseVersion2` returns the same
result (the same header or the same error), leaves the same unread bytes, so consumes the
same number of bytes, and leaves the same counters. -/
theorem parseVersion2_ignores_signature (reader : Reader) (in1 in2 : List Nat) (st : State)
    (hlen : in1.length = in2.length) (htail : in1.drop 12 = in2.drop 12) :
    (parseVersion2 ⟨in1, reader.size, reader.hsize⟩ st).result
      = (parseVersion2 ⟨in2, reader.size, reader.hsize⟩ st).result ∧
    (parseVersion2 ⟨in1, reader.size, reader.hsize⟩ st).reader
      = (parseVersion2 ⟨in2, reader.size, reader.hsize⟩ st).reader ∧
    in1.length - (parseVersion2 ⟨in1, reader.size, reader.hsize⟩ st).reader.unread.length
      = in2.length
        - (parseVersion2 ⟨in2, reader.size, reader.hsize⟩ st).reader.unread.length ∧
    (parseVersion2 ⟨in1, reader.size, reader.hsize⟩ st).state
      = (parseVersion2 ⟨in2, reader.size, reader.hsize⟩ st).state := by
  have key : parseVersion2 ⟨in1, reader.size, reader.hsize⟩ st
      = parseVersion2 ⟨in2, reader.size, reader.hsize⟩ st := by
    by_cases h : in1.length < 12
    · rw [parseVersion2_short reader.size reader.hsize in1 st h,
        parseVersion2_short reader.size reader.hsize in2 st (by omega)]
    · have e1 : in1 = in1.take 12 ++ in1.drop 12 := (List.take_append_drop 12 in1).symm
      have e2 : in2 = in2.take 12 ++ in1.drop 12 := by
        rw [htail]
        exact (List.take_append_drop 12 in2).symm
      rw [e1, e2]
      exact parseVersion2_signature_irrelevant reader.size reader.hsize _ _ _ st
        (by simp [List.length_take]; omega) (by simp [List.length_take]; omega)
  rw [key, hlen]
  exact ⟨rfl, rfl, rfl, rfl⟩

/-- Witness of C19: the example header of the specification and the same bytes behind
twelve zero bytes instead of the signature are decoded alike, to a header. -/
theorem parseVersion2_ignores_signature_witness :
    ((parseVersion2 (NewReader [0, 0, 0, 0, 0, 0, 0, 0, 0, 0, 0, 0,
        0x21, 0x11, 0, 12, 1, 2, 3, 4, 5, 6, 7, 8, 4, 210, 1, 187]) ⟨0, 0, 0⟩).result
      = (parseVersion2
        (NewReader (SIGV2 ++ [0x21, 0x11, 0, 12, 1, 2, 3, 4, 5, 6, 7, 8, 4, 210, 1, 187]))
        ⟨0, 0, 0⟩).result ∧
    (parseVersion2 (NewReader [0, 0, 0, 0, 0, 0, 0, 0, 0, 0, 0, 0,
        0x21, 0x11, 0, 12, 1, 2, 3, 4, 5, 6, 7, 8, 4, 210, 1, 187]) ⟨0, 0, 0⟩).reader
      = (parseVersion2
        (NewReader (SIGV2 ++ [0x21, 0x11, 0, 12, 1, 2, 3, 4, 5, 6, 7, 8, 4, 210, 1, 187]))
        ⟨0, 0, 0⟩).reader ∧
    28 - (parseVersion2 (NewReader [0, 0, 0, 0, 0, 0, 0, 0, 0, 0, 0, 0,
        0x21, 0x11, 0, 12, 1, 2, 3, 4, 5, 6, 7, 8, 4, 210, 1, 187])
        ⟨0, 0, 0⟩).reader.unread.length
      = 28 - (parseVersion2
        (NewReader (SIGV2 ++ [0x21, 0x11, 0, 12, 1, 2, 3, 4, 5, 6, 7, 8, 4, 210, 1, 187]))
        ⟨0, 0, 0⟩).reader.unread.length ∧
    (parseVersion2 (NewReader [0, 0, 0, 0, 0, 0, 0, 0, 0, 0, 0, 0,
        0x21, 0x11, 0, 12, 1, 2, 3, 4, 5, 6, 7, 8, 4, 210, 1, 187]) ⟨0, 0, 0⟩).state
      = (parseVersion2
        (NewReader (SIGV2 ++ [0x21, 0x11, 0, 12, 1, 2, 3, 4, 5, 6, 7, 8, 4, 210, 1, 187]))
        ⟨0, 0, 0⟩).state) ∧
    (parseVersion2 (NewReader [0, 0, 0, 0, 0, 0, 0, 0, 0, 0, 0, 0,
        0x21, 0x11, 0, 12, 1, 2, 3, 4, 5, 6, 7, 8, 4, 210, 1, 187]) ⟨0, 0, 0⟩).result
      = .ok { Version := 2, Command := PROXY, TransportProtocol := TCPv4,
              SourceAddress := [1, 2, 3, 4], DestinationAddress := [5, 6, 7, 8],
              SourcePort := 1234, DestinationPort := 443 } :=
  ⟨parseVersion2_ignores_signature (NewReader [])
      [0, 0, 0, 0, 0, 0, 0, 0, 0, 0, 0, 0,
        0x21, 0x11, 0, 12, 1, 2, 3, 4, 5, 6, 7, 8, 4, 210, 1, 187]
      (SIGV2 ++ ([0x21, 0x11, 0, 12, 1, 2, 3, 4, 5, 6, 7, 8, 4, 210, 1, 187] : List Nat))
      ⟨0, 0, 0⟩ rfl rfl, rfl⟩

theorem getD_lt_256 (l : List Nat) (hb : ∀ b ∈ l, b < 256) (i : Nat) : l.getD i 0 < 256 := by
  rw [List.getD_eq_getElem?_getD]
  cases h : l[i]? with
  | none => simp
  | some v =>
    obtain ⟨k, e⟩ := List.getElem?_eq_some_iff.mp h
    have hm : v ∈ l := by
      rw [← e]
      exact List.getElem_mem k
    simpa using hb v hm

theorem putUint16_encode (hi lo : Nat) (hh : hi < 256) (hl : lo < 256) :
    PutUint16 (BigEndianUint16 hi lo) = [hi, lo] := by
  have e1 : (hi * 256 + lo) / 256 % 256 = hi := by omega
  have e2 : (hi * 256 + lo) % 256 = lo := by omega
  simp [PutUint16, BigEndianUint16, e1, e2]

theorem getD_drop (l : List Nat) (m n : Nat) :
    (l.drop m).getD n 0 = l.getD (m + n) 0 := by
  simp [List.getD_eq_getElem?_getD, List.getElem?_drop]

/-- An address block of two n-byte addresses and two ports is put together again from its
decoded fields. -/
theorem block_reassemble (block : List Nat) (n : Nat) (hlen : block.length = n + n + 4)
    (hb : ∀ b ∈ block, b < 256) :
    block.take n ++ (block.drop n).take n
      ++ PutUint16 (BigEndianUint16 (block.getD (n + n) 0) (block.getD (n + n + 1) 0))
      ++ PutUint16 (BigEndianUint16 (block.getD (n + n + 2) 0) (block.getD (n + n + 3) 0))
      = block := by
  rw [putUint16_encode _ _ (getD_lt_256 block hb _) (getD_lt_256 block hb _),
    putUint16_encode _ _ (getD_lt_256 block hb _) (getD_lt_256 block hb _)]
  have ht : (block.drop (n + n)).length = 4 := by
    rw [List.length_drop]
    omega
  obtain ⟨a, b, c, d, habcd⟩ : ∃ a b c d, block.drop (n + n) = [a, b, c, d] := by
    match hh : block.drop (n + n), ht with
    | [a, b, c, d], _ => exact ⟨a, b, c, d, rfl⟩
  have g0 : block.getD (n + n) 0 = a := by
    have := getD_drop block (n + n) 0
    rw [habcd] at this
    simpa using this.symm
  have g1 : block.getD (n + n + 1) 0 = b := by
    have := getD_drop block (n + n) 1
    rw [habcd] at this
    simpa using this.symm
  have g2 : block.getD (n + n + 2) 0 = c := by
    have := getD_drop block (n + n) 2
    rw [habcd] at this
    simpa using this.symm
  have g3 : block.getD (n + n + 3) 0 = d := by
    have := getD_drop block (n + n) 3
    rw [habcd] at this
    simpa using this.symm
  rw [g0, g1, g2, g3]
  conv_rhs =>
    rw [← List.take_append_drop n block, ← List.take_append_drop n (block.drop n),
      List.drop_drop, habcd]
  simp

/-- C20: re-encoding a canonical header reproduces it. For every input made of the
signature `SIGV2`, the byte 0x21, an IPv4 (resp. IPv6) family byte, the declared length 12
(resp. 36) and exactly that many address-block bytes, `parseVersion2` returns a header and
`writeVersion2` applied to that header writes the input again, byte for byte; likewise for
the 13-byte LOCAL input, the signature followed by 0x20. -/
theorem writeVersion2_parseVersion2 (ipString : List Nat → List Nat) (reader : Reader)
    (st : State) :
    (∀ fam block, (fam = TCPv4 ∨ fam = UDPv4) → block.length = 12 →
      (∀ b ∈ block, b < 256) →
      ∃ h : Header,
        (parseVersion2 ⟨SIGV2 ++ [0x21, fam, 0x00, 0x0C] ++ block, reader.size, reader.hsize⟩
            st).result = .ok h ∧
        (writeVersion2 ipString h []).1 = SIGV2 ++ [0x21, fam, 0x00, 0x0C] ++ block) ∧
    (∀ fam block, (fam = TCPv6 ∨ fam = UDPv6) → block.length = 36 →
      (∀ b ∈ block, b < 256) →
      ∃ h : Header,
        (parseVersion2 ⟨SIGV2 ++ [0x21, fam, 0x00, 0x24] ++ block, reader.size, reader.hsize⟩
            st).result = .ok h ∧
        (writeVersion2 ipString h []).1 = SIGV2 ++ [0x21, fam, 0x00, 0x24] ++ block) ∧
    (∃ h : Header,
        (parseVersion2 ⟨SIGV2 ++ [0x20], reader.size, reader.hsize⟩ st).result = .ok h ∧
        (writeVersion2 ipString h []).1 = SIGV2 ++ [0x20]) := by
  have hc : ¬ supportedCommand 0x21 = false := by decide
  have hl : ¬ IsLocal 0x21 = true := by decide
  refine ⟨?_, ?_, ?_⟩
  · intro fam block hfam hlen hb
    obtain ⟨hsup, h4⟩ := supported_of_ipv4 _ hfam
    have hv : validateLength
        { Version := 2, Command := 0x21, TransportProtocol := fam, SourceAddress := [],
          DestinationAddress := [], SourcePort := 0, DestinationPort := 0 }
        (BigEndianUint16 0x00 0x0C) = true := by
      simp [validateLength, h4, lengthV4, BigEndianUint16]
    have hsz := reader.hsize
    have hp : ¬ (reader.size < BigEndianUint16 0x00 0x0C
        ∨ block.length < BigEndianUint16 0x00 0x0C) := by
      simp only [hlen, BigEndianUint16]
      omega
    have e : SIGV2 ++ [0x21, fam, 0x00, 0x0C] ++ block
        = SIGV2 ++ 0x21 :: fam :: 0x00 :: 0x0C :: block := by simp
    rw [e, parseVersion2_frame reader.size reader.hsize SIGV2 block 0x21 fam 0x00 0x0C st
        SIGV2_length, if_neg hc,
      if_neg hl, if_neg (by simp [hsup]), if_neg (by simp [hv]), if_neg hp, if_pos h4]
    refine ⟨_, rfl, ?_⟩
    simp only [writeVersion2, List.nil_append]
    rw [writeVersion2Buf_ipv4 ipString _ rfl hfam]
    have t1 : To4 (block.take 4) = block.take 4 := by
      simp [To4, List.length_take, hlen]
    have t2 : To4 ((block.drop 4).take 4) = (block.drop 4).take 4 := by
      simp [To4, List.length_take, List.length_drop, hlen]
    simp only [t1, t2]
    rw [block_reassemble block 4 hlen hb]
    rfl
  · intro fam block hfam hlen hb
    obtain ⟨hsup, h4, h6⟩ := supported_of_ipv6 _ hfam
    have hv : validateLength
        { Version := 2, Command := 0x21, TransportProtocol := fam, SourceAddress := [],
          DestinationAddress := [], SourcePort := 0, DestinationPort := 0 }
        (BigEndianUint16 0x00 0x24) = true := by
      simp [validateLength, h4, h6, lengthV6, BigEndianUint16]
    have hsz := reader.hsize
    have hp : ¬ (reader.size < BigEndianUint16 0x00 0x24
        ∨ block.length < BigEndianUint16 0x00 0x24) := by
      simp only [hlen, BigEndianUint16]
      omega
    have e : SIGV2 ++ [0x21, fam, 0x00, 0x24] ++ block
        = SIGV2 ++ 0x21 :: fam :: 0x00 :: 0x24 :: block := by simp
    rw [e, parseVersion2_frame reader.size reader.hsize SIGV2 block 0x21 fam 0x00 0x24 st
        SIGV2_length, if_neg hc,
      if_neg hl, if_neg (by simp [hsup]), if_neg (by simp [hv]), if_neg hp,
      if_neg (by simp [h4]), if_pos h6]
    refine ⟨_, rfl, ?_⟩
    simp only [writeVersion2, List.nil_append]
    rw [writeVersion2Buf_ipv6 ipString _ rfl hfam]
    have t1 : To16 (block.take 16) = block.take 16 := by
      simp [To16, List.length_take, hlen]
    have t2 : To16 ((block.drop 16).take 16) = (block.drop 16).take 16 := by
      simp [To16, List.length_take, List.length_drop, hlen]
    simp only [t1, t2]
    rw [block_reassemble block 16 hlen hb]
    rfl
  · have hp := (parseVersion2_command reader.size reader.hsize SIGV2 [] 0x20 st SIGV2_length).2 (by
      decide) (by decide)
    rw [hp]
    refine ⟨_, rfl, ?_⟩
    simp only [writeVersion2, List.nil_append]
    rw [writeVersion2Buf_local ipString _ rfl]
    rfl

/-- Witness of C20: the 28 bytes of the specification's example are decoded and written
again unchanged. -/
theorem writeVersion2_parseVersion2_witness :
    ∃ h : Header,
      (parseVersion2 (NewReader (SIGV2 ++ [0x21, 0x11, 0x00, 0x0C]
        ++ [1, 2, 3, 4, 5, 6, 7, 8, 0x04, 0xD2, 0x01, 0xBB])) ⟨0, 0, 0⟩).result = .ok h ∧
      (writeVersion2 id h []).1 = SIGV2 ++ [0x21, 0x11, 0x00, 0x0C]
        ++ [1, 2, 3, 4, 5, 6, 7, 8, 0x04, 0xD2, 0x01, 0xBB] :=
  (writeVersion2_parseVersion2 id (NewReader []) ⟨0, 0, 0⟩).1 0x11
    [1, 2, 3, 4, 5, 6, 7, 8, 0x04, 0xD2, 0x01, 0xBB] (Or.inl rfl) rfl (by decide)

end BfeProxy
